import Mathlib

/-!
Shallow embedding of the DriveEt prepaid-bundle subsystem: the resource
ledger (`UserBundle` balances plus the `ResourceTransaction` audit log), the
consumption service, the order/payment state machine, the suggestion engine
and the maintenance cron jobs, translated from `core/models.py` and
`core/services.py`.

Modelling conventions:
* Time is measured in whole seconds (`Nat`); one day is 86400 seconds, so
  Python's `(now - last).days >= 1` becomes `86400 ≤ now - last` (with
  truncated `Nat` subtraction agreeing with the negative-delta case) and
  `now.replace(hour=0, ...)` becomes `(now / 86400) * 86400`.
* Monetary `Decimal` values and Python floats in the scoring formula are
  modelled as rationals (`ℚ`); `0.4` is `2/5`, and so on.
* Balance counters are Django `PositiveIntegerField` columns.  They are
  modelled as `Int` together with the database CHECK constraint `value >= 0`:
  a row update whose result would be negative raises `IntegrityError`, which
  the service's `except` block turns into an internal-error result with the
  enclosing atomic block rolled back (`countersNonneg` below).
* Python divisions raise `ZeroDivisionError` on a zero divisor; fallible
  arithmetic is therefore wrapped in `Option` (`qdiv?` below).
* Django querysets with `order_by` are modelled with `List.insertionSort`,
  a stable sort like the database ordering followed by Python's `sorted`.
-/

namespace DriveEt

def secondsPerDay : Nat := 86400

/-- `ResourceTransaction.ResourceType` from `core/models.py`. -/
inductive ResourceType
  | exam
  | chat
  | search
  | road_sign
deriving DecidableEq, Repr

/-- `ResourceTransaction.TransactionType` from `core/models.py`. -/
inductive TransactionType
  | purchase
  | consume
  | refund
  | reset
  | expiry
deriving DecidableEq, Repr

/-- `BundleOrder.OrderStatus` from `core/models.py`. -/
inductive OrderStatus
  | pending
  | payment_verified
  | insufficient_funds
  | completed
  | cancelled
  | expired
deriving DecidableEq, Repr

/-- `BundlePurchase.PaymentStatus` from `core/models.py`. -/
inductive PaymentStatus
  | pending
  | completed
  | failed
  | refunded
  | cancelled
deriving DecidableEq, Repr

/-- `BundleDefinition` (catalog template, `core/models.py`).  Quota fields
are `PositiveIntegerField`s where the value 0 encodes "unlimited". -/
structure BundleDefinition where
  defId : Nat
  name : String
  exam_quota : Nat
  total_chat_quota : Nat
  daily_chat_limit : Nat
  search_quota : Nat
  has_unlimited_road_sign_quiz : Bool
  validity_days : Nat
  price_etb : ℚ
  is_active : Bool
  order : Nat
deriving DecidableEq, Repr

def BundleDefinition.is_unlimited_exams (d : BundleDefinition) : Bool :=
  d.exam_quota == 0

def BundleDefinition.is_unlimited_chats (d : BundleDefinition) : Bool :=
  d.total_chat_quota == 0

def BundleDefinition.is_unlimited_search (d : BundleDefinition) : Bool :=
  d.search_quota == 0

/-- `UserBundle` (live balance record, `core/models.py`).  The immutable
catalog row it references is inlined as `defn`. -/
structure UserBundle where
  bundleId : Nat
  userId : Nat
  defn : BundleDefinition
  purchase_date : Nat
  expiry_date : Nat
  is_active : Bool
  exams_remaining : Int
  chats_remaining : Int
  search_remaining : Int
  total_chats_consumed : Int
  last_chat_reset : Nat
  daily_chats_used : Int
deriving DecidableEq, Repr

/-- `UserBundle.save` on a fresh instance (`core/models.py` 990-1001):
expiry is stamped from the definition's validity window and the balances are
initialised to the definition's quotas. -/
def mkUserBundle (bid uid : Nat) (d : BundleDefinition) (now : Nat) : UserBundle :=
  { bundleId := bid
    userId := uid
    defn := d
    purchase_date := now
    expiry_date := now + d.validity_days * secondsPerDay
    is_active := true
    exams_remaining := (d.exam_quota : Int)
    chats_remaining := (d.total_chat_quota : Int)
    search_remaining := (d.search_quota : Int)
    total_chats_consumed := 0
    last_chat_reset := now
    daily_chats_used := 0 }

def UserBundle.is_expired (b : UserBundle) (now : Nat) : Bool :=
  decide (b.expiry_date < now)

def UserBundle.can_use_exam (b : UserBundle) (now : Nat) : Bool :=
  if !b.is_active then false
  else if b.is_expired now then false
  else if b.defn.is_unlimited_exams then true
  else decide (0 < b.exams_remaining)

/-- `UserBundle._reset_daily_chat_if_needed` (`core/models.py` 1050-1058):
when at least one day elapsed since the last reset, zero the daily counter
and stamp the reset time (a committed write, performed outside any ledger
transaction). -/
def UserBundle.reset_daily_chat_if_needed (b : UserBundle) (now : Nat) : UserBundle :=
  if secondsPerDay ≤ now - b.last_chat_reset then
    { b with daily_chats_used := 0, last_chat_reset := now }
  else b

/-- `UserBundle.can_use_chat` (`core/models.py` 1017-1034).  The property
both reads and (through the lazy daily reset) may write the bundle, so it
returns the possibly-updated row alongside the boolean. -/
def UserBundle.can_use_chat (b : UserBundle) (now : Nat) : Bool × UserBundle :=
  if !b.is_active then (false, b)
  else if b.is_expired now then (false, b)
  else if 0 < b.defn.daily_chat_limit then
    let b2 := b.reset_daily_chat_if_needed now
    if (b2.defn.daily_chat_limit : Int) ≤ b2.daily_chats_used then (false, b2)
    else if b2.defn.is_unlimited_chats then (true, b2)
    else (decide (0 < b2.chats_remaining), b2)
  else if b.defn.is_unlimited_chats then (true, b)
  else (decide (0 < b.chats_remaining), b)

def UserBundle.can_use_search (b : UserBundle) (now : Nat) : Bool :=
  if !b.is_active then false
  else if b.is_expired now then false
  else if b.defn.is_unlimited_search then true
  else decide (0 < b.search_remaining)

/-- `ResourceTransaction` ledger row (`core/models.py`). -/
structure ResourceTransaction where
  userId : Nat
  bundleId : Nat
  transaction_type : TransactionType
  resource_type : Option ResourceType
  quantity : Int
  exams_before : Option Int
  exams_after : Option Int
  chats_before : Option Int
  chats_after : Option Int
  search_before : Option Int
  search_after : Option Int
  description : String
deriving DecidableEq, Repr

/-- `UserProfile`, reduced to the active-bundle pointer (a nullable foreign
key to a `UserBundle` row). -/
structure UserProfile where
  userId : Nat
  active_bundle : Option Nat
deriving DecidableEq, Repr

/-- `PaymentMethod` catalog row, reduced to what the order service reads. -/
structure PaymentMethod where
  pmId : Nat
  code : String
  is_active : Bool
deriving DecidableEq, Repr

/-- `BundleOrder` (`core/models.py`), with the chosen definition inlined. -/
structure BundleOrder where
  orderId : Nat
  userId : Nat
  defn : BundleDefinition
  order_amount : ℚ
  status : OrderStatus
  reference_number : String
  verified_amount : Option ℚ
  verified_at : Option Nat
  resulting_bundle : Option Nat
  expires_at : Nat
deriving DecidableEq, Repr

/-- Reason attached to a suggestion; an explicit rendering of the f-strings
built by `get_budget_suggestions`. -/
inductive SuggestReason
  | goodBudgetUtilization
  | overBudget
  | withinBudget (saves : ℚ)
  | cheapestAvailable (deficit : ℚ)
deriving DecidableEq, Repr

/-- `OrderBundleSuggestion` row (`core/models.py`). -/
structure OrderBundleSuggestion where
  orderId : Nat
  defn : BundleDefinition
  reason : SuggestReason
  order_score : ℚ
deriving DecidableEq, Repr

/-- `BundlePurchase` receipt row (`core/models.py`), reduced to the fields
the services write. -/
structure BundlePurchase where
  userId : Nat
  defId : Nat
  amount_paid : ℚ
  payment_status : PaymentStatus
  user_bundle : Option Nat
  orderId : Option Nat
deriving DecidableEq, Repr

/-- The relational state the two services act on: catalog tables, the
bundle table, the acting user's profile, orders, suggestion rows, purchase
receipts and the append-only transaction log.  `nextBundleId` and
`nextOrderId` stand for the database's fresh primary keys. -/
structure SysState where
  catalog : List BundleDefinition
  paymentMethods : List PaymentMethod
  bundles : List UserBundle
  profile : UserProfile
  orders : List BundleOrder
  suggestions : List OrderBundleSuggestion
  purchases : List BundlePurchase
  log : List ResourceTransaction
  nextBundleId : Nat
  nextOrderId : Nat
deriving DecidableEq, Repr

def findBundle (bs : List UserBundle) (bid : Nat) : Option UserBundle :=
  bs.find? (fun b => b.bundleId == bid)

def updateBundle (bs : List UserBundle) (b' : UserBundle) : List UserBundle :=
  bs.map (fun b => if b.bundleId == b'.bundleId then b' else b)

def findOrder (os : List BundleOrder) (oid : Nat) : Option BundleOrder :=
  os.find? (fun o => o.orderId == oid)

def updateOrder (os : List BundleOrder) (o' : BundleOrder) : List BundleOrder :=
  os.map (fun o => if o.orderId == o'.orderId then o' else o)

/-- `BundleService.get_active_bundle` (`core/services.py` 25-34) combined
with `UserProfile.has_active_bundle` (`core/models.py` 565-570): returns the
profile's pointed-to bundle only when it is active and unexpired. -/
def get_active_bundle (st : SysState) (now : Nat) : Option UserBundle :=
  match st.profile.active_bundle with
  | none => none
  | some bid =>
    match findBundle st.bundles bid with
    | none => none
    | some b => if b.is_active && !(b.is_expired now) then some b else none

/-- The distinct outcomes of `BundleService.consume_resource`, one per
return site in `core/services.py` 37-146. -/
inductive ConsumeRes
  | ok
  | noActiveBundle
  | examExhausted
  | examInsufficient
  | chatExhausted
  | chatInsufficient
  | searchExhausted
  | searchInsufficient
  | roadSignNotIncluded
  | internalError
deriving DecidableEq, Repr

/-- The error-message string `consume_resource` pairs with each outcome
(numeric remainders in the f-strings omitted). -/
def ConsumeRes.message : ConsumeRes → String
  | .ok => ""
  | .noActiveBundle => "No active bundle found"
  | .examExhausted => "Exam quota exhausted or bundle expired"
  | .examInsufficient => "Insufficient exam attempts"
  | .chatExhausted => "Chat quota exhausted or daily limit reached"
  | .chatInsufficient => "Insufficient chat messages"
  | .searchExhausted => "Search quota exhausted or bundle expired"
  | .searchInsufficient => "Insufficient search quota"
  | .roadSignNotIncluded => "Road sign quiz not included in bundle"
  | .internalError => "Internal error"

/-- Result of the pre-lock admission phase of `consume_resource`: either an
early return or the primary key of the bundle to lock. -/
inductive AdmissionStep
  | early (r : ConsumeRes)
  | proceed (bid : Nat)
deriving DecidableEq, Repr

/-- Steps 1-2 of `consume_resource` (`core/services.py` 53-84): resolve the
active bundle and run the resource-specific admission check, before any lock
is taken.  For chat the check itself may commit the lazy daily reset. -/
def admission (st : SysState) (now : Nat) (rt : ResourceType) (q : Int) :
    AdmissionStep × SysState :=
  match get_active_bundle st now with
  | none => (.early .noActiveBundle, st)
  | some b =>
    match rt with
    | .exam =>
      if !(b.can_use_exam now) then (.early .examExhausted, st)
      else if !b.defn.is_unlimited_exams && decide (b.exams_remaining < q) then
        (.early .examInsufficient, st)
      else (.proceed b.bundleId, st)
    | .chat =>
      let p := b.can_use_chat now
      let st2 := { st with bundles := updateBundle st.bundles p.2 }
      if !p.1 then (.early .chatExhausted, st2)
      else if !p.2.defn.is_unlimited_chats && decide (p.2.chats_remaining < q) then
        (.early .chatInsufficient, st2)
      else (.proceed b.bundleId, st2)
    | .search =>
      if !(b.can_use_search now) then (.early .searchExhausted, st)
      else if !b.defn.is_unlimited_search && decide (b.search_remaining < q) then
        (.early .searchInsufficient, st)
      else (.proceed b.bundleId, st)
    | .road_sign =>
      if !b.defn.has_unlimited_road_sign_quiz then (.early .roadSignNotIncluded, st)
      else (.early .ok, st)

/-- The balance updates of the locked section (`core/services.py` 99-112):
decrement the consumed counter unless unlimited; chat also bumps the total
and daily counters. -/
def applyConsume (b : UserBundle) (rt : ResourceType) (q : Int) : UserBundle :=
  match rt with
  | .exam =>
    if b.defn.is_unlimited_exams then b
    else { b with exams_remaining := b.exams_remaining - q }
  | .chat =>
    let b1 :=
      if b.defn.is_unlimited_chats then b
      else { b with chats_remaining := b.chats_remaining - q }
    { b1 with
      total_chats_consumed := b1.total_chats_consumed + q
      daily_chats_used := b1.daily_chats_used + q }
  | .search =>
    if b.defn.is_unlimited_search then b
    else { b with search_remaining := b.search_remaining - q }
  | .road_sign => b

/-- The database CHECK constraints generated for the five
`PositiveIntegerField` balance columns: an update committing a negative
value raises `IntegrityError`. -/
def countersNonneg (b : UserBundle) : Bool :=
  decide (0 ≤ b.exams_remaining) && decide (0 ≤ b.chats_remaining) &&
  decide (0 ≤ b.search_remaining) && decide (0 ≤ b.total_chats_consumed) &&
  decide (0 ≤ b.daily_chats_used)

/-- The `consume` ledger row written by the locked section
(`core/services.py` 124-139), with before/after snapshots of the three
remaining counters. -/
def consumeTxn (b b' : UserBundle) (rt : ResourceType) (q : Int) (descr : String) :
    ResourceTransaction :=
  { userId := b.userId
    bundleId := b.bundleId
    transaction_type := .consume
    resource_type := some rt
    quantity := -q
    exams_before := some b.exams_remaining
    exams_after := some b'.exams_remaining
    chats_before := some b.chats_remaining
    chats_after := some b'.chats_remaining
    search_before := some b.search_remaining
    search_after := some b'.search_remaining
    description := descr }

/-- The `transaction.atomic` section of `consume_resource`
(`core/services.py` 86-146): lock and re-read the row by primary key,
apply the decrements, and commit the new balances together with the
`consume` transaction row; a constraint violation rolls the whole unit
back and surfaces as an internal error. -/
def atomicConsume (st : SysState) (bid : Nat) (rt : ResourceType) (q : Int)
    (descr : String) : ConsumeRes × SysState :=
  match findBundle st.bundles bid with
  | none => (.internalError, st)
  | some b =>
    let b' := applyConsume b rt q
    if countersNonneg b' then
      (.ok, { st with
        bundles := updateBundle st.bundles b'
        log := st.log ++ [consumeTxn b b' rt q descr] })
    else (.internalError, st)

/-- `BundleService.consume_resource` (`core/services.py` 37-146), a single
sequential invocation: admission phase followed by the locked update. -/
def consume_resource (st : SysState) (now : Nat) (rt : ResourceType) (q : Int)
    (descr : String) : ConsumeRes × SysState :=
  match admission st now rt q with
  | (.early r, st1) => (r, st1)
  | (.proceed bid, st1) => atomicConsume st1 bid rt q descr

/-- Two exam consumptions of quantity 1 racing on the same bundle: both
admission checks read the initial state (the gap before the lock), then the
two locked sections serialize.  Exam admission never writes state, so the
initial state is what both reads observe. -/
def consume_exam_pair (st : SysState) (now : Nat) : (ConsumeRes × ConsumeRes) × SysState :=
  match (admission st now .exam 1).1, (admission st now .exam 1).1 with
  | .early r1, .early r2 => ((r1, r2), st)
  | .early r1, .proceed bid =>
    let p := atomicConsume st bid .exam 1 ""
    ((r1, p.1), p.2)
  | .proceed bid, .early r2 =>
    let p := atomicConsume st bid .exam 1 ""
    ((p.1, r2), p.2)
  | .proceed bid1, .proceed bid2 =>
    let p := atomicConsume st bid1 .exam 1 ""
    let p2 := atomicConsume p.2 bid2 .exam 1 ""
    ((p.1, p2.1), p2.2)

/-- `BundleService.check_resource_access` (`core/services.py` 148-179):
resolve the bundle and run the admission predicate only.  For chat the
predicate is `can_use_chat`, whose lazy daily reset commits. -/
def check_resource_access (st : SysState) (now : Nat) (rt : ResourceType) :
    Bool × SysState :=
  match get_active_bundle st now with
  | none => (false, st)
  | some b =>
    match rt with
    | .exam => (b.can_use_exam now, st)
    | .chat =>
      let p := b.can_use_chat now
      (p.1, { st with bundles := updateBundle st.bundles p.2 })
    | .search => (b.can_use_search now, st)
    | .road_sign => (b.defn.has_unlimited_road_sign_quiz, st)

/-- The initial `purchase` ledger row written on bundle activation
(`core/services.py` 224-239 and 578-593). -/
def purchaseTxn (uid : Nat) (b : UserBundle) (d : BundleDefinition) (descr : String) :
    ResourceTransaction :=
  { userId := uid
    bundleId := b.bundleId
    transaction_type := .purchase
    resource_type := none
    quantity := (d.exam_quota : Int)
    exams_before := some 0
    exams_after := some b.exams_remaining
    chats_before := some 0
    chats_after := some b.chats_remaining
    search_before := some 0
    search_after := some b.search_remaining
    description := descr }

/-- The subset of `payment_data` read by `purchase_bundle`. -/
structure PaymentData where
  amount : Option ℚ
  auto_complete : Bool
deriving DecidableEq, Repr

inductive PurchaseRes
  | ok (bundleId : Option Nat)
  | definitionNotFound
deriving DecidableEq, Repr

/-- `BundleService.purchase_bundle` (`core/services.py` 181-247).  On the
auto-complete path the purchase is marked completed,
`BundlePurchase.create_user_bundle` materialises the bundle, the profile
pointer is replaced and the initial `purchase` row is appended, all in one
atomic block. -/
def purchase_bundle (st : SysState) (now : Nat) (defId : Nat) (pd : PaymentData) :
    PurchaseRes × SysState :=
  match st.catalog.find? (fun d => d.defId == defId && d.is_active) with
  | none => (.definitionNotFound, st)
  | some d =>
    if pd.auto_complete then
      let b := mkUserBundle st.nextBundleId st.profile.userId d now
      let rec_ : BundlePurchase :=
        { userId := st.profile.userId
          defId := d.defId
          amount_paid := pd.amount.getD d.price_etb
          payment_status := .completed
          user_bundle := some b.bundleId
          orderId := none }
      (.ok (some b.bundleId),
        { st with
          bundles := st.bundles ++ [b]
          profile := { st.profile with active_bundle := some b.bundleId }
          purchases := st.purchases ++ [rec_]
          log := st.log ++ [purchaseTxn st.profile.userId b d ("Purchased " ++ d.name)]
          nextBundleId := st.nextBundleId + 1 })
    else
      let rec_ : BundlePurchase :=
        { userId := st.profile.userId
          defId := d.defId
          amount_paid := pd.amount.getD d.price_etb
          payment_status := .pending
          user_bundle := none
          orderId := none }
      (.ok none, { st with purchases := st.purchases ++ [rec_] })

inductive CreateOrderRes
  | ok (orderId : Nat)
  | definitionNotFound
  | paymentMethodNotFound
deriving DecidableEq, Repr

/-- `BundleOrderService.create_order` (`core/services.py` 385-423) together
with `BundleOrder.save` (`core/models.py` 1252-1256), which stamps the
24-hour expiry deadline. -/
def create_order (st : SysState) (now : Nat) (defId pmId : Nat) :
    CreateOrderRes × SysState :=
  match st.catalog.find? (fun d => d.defId == defId && d.is_active) with
  | none => (.definitionNotFound, st)
  | some d =>
    match st.paymentMethods.find? (fun m => m.pmId == pmId && m.is_active) with
    | none => (.paymentMethodNotFound, st)
    | some _ =>
      let o : BundleOrder :=
        { orderId := st.nextOrderId
          userId := st.profile.userId
          defn := d
          order_amount := d.price_etb
          status := .pending
          reference_number := ""
          verified_amount := none
          verified_at := none
          resulting_bundle := none
          expires_at := now + 24 * 3600 }
      (.ok o.orderId, { st with orders := st.orders ++ [o], nextOrderId := st.nextOrderId + 1 })

/-- `BundleOrderService.complete_order` (`core/services.py` 531-605):
requires a `payment_verified` order (the lookup raises otherwise, modelled
as `none`); atomically creates the bundle from the order's definition,
marks the order completed, re-points the profile, writes the receipt and
appends the initial `purchase` row. -/
def complete_order (st : SysState) (now : Nat) (oid : Nat) : Option (Nat × SysState) :=
  match st.orders.find? (fun o => o.orderId == oid && o.status == OrderStatus.payment_verified) with
  | none => none
  | some o =>
    let b := mkUserBundle st.nextBundleId o.userId o.defn now
    let o' := { o with resulting_bundle := some b.bundleId, status := OrderStatus.completed }
    let rec_ : BundlePurchase :=
      { userId := o.userId
        defId := o.defn.defId
        amount_paid := (o.verified_amount).getD 0
        payment_status := .completed
        user_bundle := some b.bundleId
        orderId := some o.orderId }
    some (b.bundleId,
      { st with
        bundles := st.bundles ++ [b]
        orders := updateOrder st.orders o'
        profile := { st.profile with active_bundle := some b.bundleId }
        purchases := st.purchases ++ [rec_]
        log := st.log ++ [purchaseTxn o.userId b o.defn ("Purchased " ++ o.defn.name ++ " via order")]
        nextBundleId := st.nextBundleId + 1 })

/-- The black-box `PaymentVerifier.verify_payment` result
(`payments/verification.py`), restricted to the fields the order service
reads on a successful verification. -/
structure VerifyResult where
  success : Bool
  amount : ℚ
  date : Option Nat
deriving DecidableEq, Repr

inductive VerifyStatus
  | completed
  | insufficient_funds
  | expiredOrder
  | verification_failed
  | not_found
  | internalError
deriving DecidableEq, Repr

/-- The part of `verify_payment`'s result dictionary the claims are about. -/
structure VerifyOutcome where
  success : Bool
  vstatus : VerifyStatus
  deficit : Option ℚ
deriving DecidableEq, Repr

/-- One in-memory suggestion dictionary built by `get_budget_suggestions`. -/
structure SuggestionItem where
  bundle : BundleDefinition
  reason : SuggestReason
  score : ℚ
  deficit : Option ℚ
  remaining_budget : Option ℚ
deriving DecidableEq, Repr

/-- Guarded division: Python raises `ZeroDivisionError` on a zero divisor. -/
def qdiv? (a b : ℚ) : Option ℚ :=
  if b = 0 then none else some (a / b)

/-- The per-candidate scoring step of `get_budget_suggestions`
(`core/services.py` 640-671): value-for-money, exact-match bonus, budget-fit
bonus (which also fixes the reason string) and the display-order popularity
bonus. -/
def scoreBundle (budget : ℚ) (current : Option BundleDefinition) (d : BundleDefinition) :
    Option SuggestionItem :=
  match qdiv? ((d.exam_quota : ℚ) + (d.total_chat_quota : ℚ) + (d.search_quota : ℚ)) d.price_etb with
  | none => none
  | some value_score =>
    match qdiv? d.price_etb budget with
    | none => none
    | some budget_utilization =>
      let s1 : ℚ := value_score * (2/5)
      let s2 : ℚ :=
        if (match current with | some c => c.defId == d.defId | none => false) then s1 + 3/10
        else s1
      let sr : ℚ × SuggestReason :=
        if 4/5 ≤ budget_utilization ∧ budget_utilization ≤ 1 then
          (s2 + 1/5, .goodBudgetUtilization)
        else if 1 < budget_utilization then (s2, .overBudget)
        else (s2, .withinBudget (budget - d.price_etb))
      let s4 : ℚ := if 50 ≤ d.order then sr.1 + 1/10 else sr.1
      some { bundle := d
             reason := sr.2
             score := s4
             deficit := none
             remaining_budget := some (budget - d.price_etb) }

/-- The scoring loop of `get_budget_suggestions`, propagating a
`ZeroDivisionError` from any candidate. -/
def scoreAll (budget : ℚ) (current : Option BundleDefinition) :
    List BundleDefinition → Option (List SuggestionItem)
  | [] => some []
  | d :: ds =>
    match scoreBundle budget current d, scoreAll budget current ds with
    | some s, some rest => some (s :: rest)
    | _, _ => none

def priceAsc (a b : BundleDefinition) : Prop := a.price_etb ≤ b.price_etb

def priceDesc (a b : BundleDefinition) : Prop := b.price_etb ≤ a.price_etb

def scoreDesc (a b : SuggestionItem) : Prop := b.score ≤ a.score

instance : DecidableRel priceAsc :=
  fun a b => inferInstanceAs (Decidable (a.price_etb ≤ b.price_etb))

instance : DecidableRel priceDesc :=
  fun a b => inferInstanceAs (Decidable (b.price_etb ≤ a.price_etb))

instance : DecidableRel scoreDesc :=
  fun a b => inferInstanceAs (Decidable (b.score ≤ a.score))

instance : IsTotal BundleDefinition priceAsc :=
  ⟨fun a b => le_total a.price_etb b.price_etb⟩

instance : IsTrans BundleDefinition priceAsc :=
  ⟨fun _ _ _ h1 h2 => le_trans h1 h2⟩

/-- `BundleOrderService.get_budget_suggestions` (`core/services.py`
607-675): the affordable active definitions in descending price order are
scored and the top 3 by score returned; when none are affordable the single
cheapest active definition is suggested with score 0.5 and the deficit
noted. -/
def get_budget_suggestions (budget : ℚ) (current : Option BundleDefinition)
    (catalog : List BundleDefinition) : Option (List SuggestionItem) :=
  let affordable :=
    List.insertionSort priceDesc
      (catalog.filter (fun d => d.is_active && decide (d.price_etb ≤ budget)))
  match affordable with
  | [] =>
    match (List.insertionSort priceAsc (catalog.filter (fun d => d.is_active))).head? with
    | none => some []
    | some cheapest =>
      some [{ bundle := cheapest
              reason := .cheapestAvailable (cheapest.price_etb - budget)
              score := 1/2
              deficit := some (cheapest.price_etb - budget)
              remaining_budget := none }]
  | _ =>
    match scoreAll budget current affordable with
    | none => none
    | some items => some ((List.insertionSort scoreDesc items).take 3)

/-- `BundleOrderService.verify_payment` (`core/services.py` 425-529).  The
external verifier's answer is passed in as `vres`. -/
def verify_payment (st : SysState) (now : Nat) (oid : Nat) (ref : String)
    (vres : VerifyResult) : VerifyOutcome × SysState :=
  match st.orders.find? (fun o => o.orderId == oid && o.status == OrderStatus.pending) with
  | none => ({ success := false, vstatus := .not_found, deficit := none }, st)
  | some o =>
    if decide (o.expires_at < now) then
      ({ success := false, vstatus := .expiredOrder, deficit := none },
        { st with orders := updateOrder st.orders { o with status := OrderStatus.expired } })
    else if !vres.success then
      ({ success := false, vstatus := .verification_failed, deficit := none }, st)
    else
      let o1 := { o with
        reference_number := ref
        verified_amount := some vres.amount
        verified_at := some (vres.date.getD now) }
      if decide (o.order_amount ≤ vres.amount) then
        let st2 := { st with orders := updateOrder st.orders { o1 with status := OrderStatus.payment_verified } }
        match complete_order st2 now oid with
        | some (_, st3) => ({ success := true, vstatus := .completed, deficit := none }, st3)
        | none => ({ success := false, vstatus := .internalError, deficit := none }, st2)
      else
        let st2 := { st with orders := updateOrder st.orders { o1 with status := OrderStatus.insufficient_funds } }
        match get_budget_suggestions vres.amount (some o.defn) st.catalog with
        | none => ({ success := false, vstatus := .internalError, deficit := none }, st2)
        | some items =>
          let rows := items.map (fun s =>
            ({ orderId := oid, defn := s.bundle, reason := s.reason, order_score := s.score }
              : OrderBundleSuggestion))
          ({ success := false, vstatus := .insufficient_funds,
             deficit := some (o.order_amount - vres.amount) },
            { st2 with suggestions := st2.suggestions ++ rows })

inductive AcceptRes
  | ok (bundleId : Nat)
  | invalid
  | internalError
deriving DecidableEq, Repr

/-- `BundleOrderService.accept_suggestion` (`core/services.py` 706-742).
The order is fetched by id alone — with no status filter — and the only
guard is that a suggestion row links this order to the chosen definition;
the order is then re-pointed and completed inside one atomic block. -/
def accept_suggestion (st : SysState) (now : Nat) (oid defId : Nat) :
    AcceptRes × SysState :=
  match findOrder st.orders oid with
  | none => (.invalid, st)
  | some o =>
    match st.catalog.find? (fun d => d.defId == defId) with
    | none => (.invalid, st)
    | some d =>
      match st.suggestions.find? (fun s => s.orderId == oid && s.defn.defId == defId) with
      | none => (.invalid, st)
      | some _ =>
        let o' := { o with
          defn := d
          order_amount := d.price_etb
          status := OrderStatus.payment_verified }
        let st2 := { st with orders := updateOrder st.orders o' }
        match complete_order st2 now oid with
        | some (bid, st3) => (.ok bid, st3)
        | none => (.internalError, st)

inductive CancelRes
  | ok
  | not_found
deriving DecidableEq, Repr

/-- `BundleOrderService.cancel_order` (`core/services.py` 744-764):
permitted only from `pending` or `insufficient_funds`. -/
def cancel_order (st : SysState) (oid : Nat) : CancelRes × SysState :=
  match st.orders.find? (fun o => o.orderId == oid &&
      (o.status == OrderStatus.pending || o.status == OrderStatus.insufficient_funds)) with
  | none => (.not_found, st)
  | some o =>
    (.ok, { st with orders := updateOrder st.orders { o with status := OrderStatus.cancelled } })

/-- The `reset` ledger row written by the daily cron
(`core/services.py` 290-300). -/
def resetTxn (b : UserBundle) : ResourceTransaction :=
  { userId := b.userId
    bundleId := b.bundleId
    transaction_type := .reset
    resource_type := some .chat
    quantity := 0
    exams_before := none
    exams_after := none
    chats_before := none
    chats_after := none
    search_before := none
    search_after := none
    description := "Daily chat reset" }

/-- `now.replace(hour=0, minute=0, second=0, microsecond=0)`: the start of
the current day. -/
def midnightOf (now : Nat) : Nat := (now / secondsPerDay) * secondsPerDay

def dailyResetNeeded (now : Nat) (b : UserBundle) : Bool :=
  b.is_active && decide (b.last_chat_reset < midnightOf now)

def resetRowMatch (now : Nat) (b : UserBundle) : Bool :=
  b.is_active && (b.daily_chats_used == 0) && (b.last_chat_reset == now)

/-- `BundleService.reset_daily_chats` (`core/services.py` 266-307): one bulk
update zeroes the daily counter of every active bundle whose last reset
predates today's midnight and stamps the reset time; reset rows are then
written for the bundles the follow-up query matches (active, zero daily
counter, reset stamp equal to this run's timestamp).  Returns the bulk
update's row count. -/
def reset_daily_chats (st : SysState) (now : Nat) : Nat × SysState :=
  let updatedBundles := st.bundles.map (fun b =>
    if dailyResetNeeded now b then { b with daily_chats_used := 0, last_chat_reset := now }
    else b)
  let rows := (updatedBundles.filter (resetRowMatch now)).map resetTxn
  ((st.bundles.filter (dailyResetNeeded now)).length,
    { st with bundles := updatedBundles, log := st.log ++ rows })

/-- The `expiry` ledger row written by the expiry cron
(`core/services.py` 329-338). -/
def expiryTxn (b : UserBundle) : ResourceTransaction :=
  { userId := b.userId
    bundleId := b.bundleId
    transaction_type := .expiry
    resource_type := none
    quantity := 0
    exams_before := none
    exams_after := none
    chats_before := none
    chats_after := none
    search_before := none
    search_after := none
    description := "Bundle expired" }

def expiryDue (now : Nat) (b : UserBundle) : Bool :=
  b.is_active && decide (b.expiry_date < now)

/-- `BundleService.expire_bundles` (`core/services.py` 309-354): deactivate
every active bundle past its expiry, append an `expiry` row for each, and
clear the profile's pointer when it referenced such a bundle. -/
def expire_bundles (st : SysState) (now : Nat) : Nat × SysState :=
  let expired := st.bundles.filter (expiryDue now)
  let newBundles := st.bundles.map (fun b =>
    if expiryDue now b then { b with is_active := false } else b)
  let profile' :=
    match st.profile.active_bundle with
    | some bid =>
      if expired.any (fun b => b.bundleId == bid) then
        { st.profile with active_bundle := none }
      else st.profile
    | none => st.profile
  (expired.length,
    { st with bundles := newBundles, log := st.log ++ expired.map expiryTxn, profile := profile' })

/-! Derived predicates used to state the verified properties. -/

/-- The balance invariant of a single bundle: each remaining counter lies in
`[0, quota]` whenever the corresponding quota is bounded (non-zero). -/
def bundleInv (b : UserBundle) : Prop :=
  (b.defn.exam_quota ≠ 0 →
    0 ≤ b.exams_remaining ∧ b.exams_remaining ≤ (b.defn.exam_quota : Int)) ∧
  (b.defn.total_chat_quota ≠ 0 →
    0 ≤ b.chats_remaining ∧ b.chats_remaining ≤ (b.defn.total_chat_quota : Int)) ∧
  (b.defn.search_quota ≠ 0 →
    0 ≤ b.search_remaining ∧ b.search_remaining ≤ (b.defn.search_quota : Int))

instance (b : UserBundle) : Decidable (bundleInv b) := by
  unfold bundleInv
  infer_instance

/-- The balance invariant over the whole bundle table. -/
def stateInv (st : SysState) : Prop :=
  ∀ b ∈ st.bundles, bundleInv b

instance (st : SysState) : Decidable (stateInv st) :=
  inferInstanceAs (Decidable (∀ b ∈ st.bundles, bundleInv b))

/-- Erases exactly the two fields the lazy daily reset may write, to state
frame conditions about every other field. -/
def scrubDaily (b : UserBundle) : UserBundle :=
  { b with daily_chats_used := 0, last_chat_reset := 0 }

/-- Primary keys of the bundle table are distinct. -/
def uniqueBundleIds (bs : List UserBundle) : Prop :=
  (bs.map (fun b => b.bundleId)).Nodup

instance (bs : List UserBundle) : Decidable (uniqueBundleIds bs) := by
  unfold uniqueBundleIds
  infer_instance

/-- Primary keys of the order table are distinct. -/
def uniqueOrderIds (os : List BundleOrder) : Prop :=
  (os.map (fun o => o.orderId)).Nodup

instance (os : List BundleOrder) : Decidable (uniqueOrderIds os) := by
  unfold uniqueOrderIds
  infer_instance

/-! Concrete fixtures used for witnesses and counterexamples. -/

def defW : BundleDefinition :=
  { defId := 7, name := "Basic", exam_quota := 5, total_chat_quota := 20,
    daily_chat_limit := 10, search_quota := 30, has_unlimited_road_sign_quiz := false,
    validity_days := 30, price_etb := 150, is_active := true, order := 1 }

def defCheap : BundleDefinition :=
  { defId := 100, name := "Starter", exam_quota := 2, total_chat_quota := 10,
    daily_chat_limit := 5, search_quota := 10, has_unlimited_road_sign_quiz := false,
    validity_days := 7, price_etb := 100, is_active := true, order := 2 }

def defBig : BundleDefinition :=
  { defId := 300, name := "Premium", exam_quota := 10, total_chat_quota := 100,
    daily_chat_limit := 20, search_quota := 100, has_unlimited_road_sign_quiz := true,
    validity_days := 60, price_etb := 300, is_active := true, order := 60 }

def defZeroPrice : BundleDefinition :=
  { defId := 9, name := "Free", exam_quota := 1, total_chat_quota := 1,
    daily_chat_limit := 1, search_quota := 1, has_unlimited_road_sign_quiz := false,
    validity_days := 1, price_etb := 0, is_active := true, order := 0 }

def pmW : PaymentMethod := { pmId := 1, code := "telebirr", is_active := true }

/-- An empty-table state with one catalog entry, for the purchase paths. -/
def stW : SysState :=
  { catalog := [defW], paymentMethods := [pmW], bundles := [],
    profile := { userId := 1, active_bundle := none }, orders := [],
    suggestions := [], purchases := [], log := [], nextBundleId := 1, nextOrderId := 1 }

/-- An expired bundle still holding remaining counters, pointed to by the
profile. -/
def bExp : UserBundle :=
  { bundleId := 1, userId := 1, defn := defW, purchase_date := 0, expiry_date := 100,
    is_active := true, exams_remaining := 5, chats_remaining := 5, search_remaining := 5,
    total_chats_consumed := 0, last_chat_reset := 0, daily_chats_used := 0 }

def stExp : SysState :=
  { catalog := [defW], paymentMethods := [pmW], bundles := [bExp],
    profile := { userId := 1, active_bundle := some 1 }, orders := [],
    suggestions := [], purchases := [], log := [], nextBundleId := 2, nextOrderId := 1 }

/-- A bundle whose daily counter is stale by more than a day and whose total
chat quota is exhausted: a chat admission check on it commits the lazy daily
reset and then fails. -/
def bLazy : UserBundle :=
  { bundleId := 1, userId := 1, defn := defW, purchase_date := 0, expiry_date := 10000000,
    is_active := true, exams_remaining := 5, chats_remaining := 0, search_remaining := 5,
    total_chats_consumed := 20, last_chat_reset := 0, daily_chats_used := 4 }

def stLazy : SysState :=
  { catalog := [defW], paymentMethods := [pmW], bundles := [bLazy],
    profile := { userId := 1, active_bundle := some 1 }, orders := [],
    suggestions := [], purchases := [], log := [], nextBundleId := 2, nextOrderId := 1 }

/-- A bundle a day past its last reset with chat quota available, for the
`check_resource_access` mutation counterexample. -/
def bStale : UserBundle :=
  { bundleId := 1, userId := 2, defn := defW, purchase_date := 0, expiry_date := 10000000,
    is_active := true, exams_remaining := 5, chats_remaining := 8, search_remaining := 5,
    total_chats_consumed := 12, last_chat_reset := 0, daily_chats_used := 3 }

def stStale : SysState :=
  { catalog := [defW], paymentMethods := [pmW], bundles := [bStale],
    profile := { userId := 2, active_bundle := some 1 }, orders := [],
    suggestions := [], purchases := [], log := [], nextBundleId := 2, nextOrderId := 1 }

/-- An active bundle with exactly one exam attempt left. -/
def bOne : UserBundle :=
  { bundleId := 1, userId := 1, defn := defW, purchase_date := 0, expiry_date := 10000000,
    is_active := true, exams_remaining := 1, chats_remaining := 3, search_remaining := 4,
    total_chats_consumed := 17, last_chat_reset := 0, daily_chats_used := 0 }

def stOne : SysState :=
  { catalog := [defW], paymentMethods := [pmW], bundles := [bOne],
    profile := { userId := 1, active_bundle := some 1 }, orders := [],
    suggestions := [], purchases := [], log := [], nextBundleId := 2, nextOrderId := 1 }

/-- An order that went through the insufficient-funds branch (with its
persisted suggestion row) — the setting for the terminality counterexample. -/
def oIns : BundleOrder :=
  { orderId := 1, userId := 1, defn := defBig, order_amount := 300,
    status := OrderStatus.insufficient_funds, reference_number := "REF1",
    verified_amount := some 100, verified_at := some 50, resulting_bundle := none,
    expires_at := 1000000 }

def suggIns : OrderBundleSuggestion :=
  { orderId := 1, defn := defCheap, reason := SuggestReason.withinBudget 0,
    order_score := 1 }

def stIns : SysState :=
  { catalog := [defCheap, defBig], paymentMethods := [pmW], bundles := [],
    profile := { userId := 1, active_bundle := none }, orders := [oIns],
    suggestions := [suggIns], purchases := [], log := [], nextBundleId := 1, nextOrderId := 2 }

/-- A pending order on the expensive definition, awaiting verification. -/
def oPend : BundleOrder :=
  { orderId := 1, userId := 1, defn := defBig, order_amount := 300,
    status := OrderStatus.pending, reference_number := "",
    verified_amount := none, verified_at := none, resulting_bundle := none,
    expires_at := 1000000 }

def stPend : SysState :=
  { catalog := [defCheap, defBig], paymentMethods := [pmW], bundles := [],
    profile := { userId := 1, active_bundle := none }, orders := [oPend],
    suggestions := [], purchases := [], log := [], nextBundleId := 1, nextOrderId := 2 }

/-- Verifier answer: success with 100 units — less than `oPend`'s 300. -/
def vres100 : VerifyResult := { success := true, amount := 100, date := some 60 }

/-- A payment-verified order ready for completion. -/
def oVerif : BundleOrder :=
  { orderId := 1, userId := 1, defn := defBig, order_amount := 300,
    status := OrderStatus.payment_verified, reference_number := "REF9",
    verified_amount := some 300, verified_at := some 55, resulting_bundle := none,
    expires_at := 1000000 }

def stVerif : SysState :=
  { catalog := [defCheap, defBig], paymentMethods := [pmW], bundles := [],
    profile := { userId := 1, active_bundle := none }, orders := [oVerif],
    suggestions := [], purchases := [], log := [], nextBundleId := 1, nextOrderId := 2 }

/-- A healthy active bundle for the daily-reset fixtures: last reset at
epoch, five messages used today. -/
def bDaily : UserBundle :=
  { bundleId := 1, userId := 1, defn := defW, purchase_date := 0, expiry_date := 10000000,
    is_active := true, exams_remaining := 4, chats_remaining := 15, search_remaining := 30,
    total_chats_consumed := 5, last_chat_reset := 0, daily_chats_used := 5 }

def stDaily : SysState :=
  { catalog := [defW], paymentMethods := [pmW], bundles := [bDaily],
    profile := { userId := 1, active_bundle := some 1 }, orders := [],
    suggestions := [], purchases := [], log := [], nextBundleId := 2, nextOrderId := 1 }

/-! General list helpers. -/

theorem map_eq_self_of_mem {α : Type} {f : α → α} {l : List α}
    (h : ∀ x ∈ l, f x = x) : l.map f = l := by
  induction l with
  | nil => rfl
  | cons a l ih =>
    rw [List.map_cons, h a (by simp), ih (fun x hx => h x (by simp [hx]))]

theorem map_congr_mem {α β : Type} {f g : α → β} {l : List α}
    (h : ∀ x ∈ l, f x = g x) : l.map f = l.map g := by
  induction l with
  | nil => rfl
  | cons a l ih =>
    rw [List.map_cons, List.map_cons, h a (by simp),
      ih (fun x hx => h x (by simp [hx]))]

theorem find?_append_some {α : Type} {p : α → Bool} {l1 l2 : List α} {a : α}
    (h : l1.find? p = some a) : (l1 ++ l2).find? p = some a := by
  induction l1 with
  | nil => simp [List.find?] at h
  | cons x xs ih =>
    rw [List.cons_append]
    cases hpx : p x with
    | true =>
      rw [List.find?_cons_of_pos _ hpx] at h
      rw [List.find?_cons_of_pos _ hpx]
      exact h
    | false =>
      rw [List.find?_cons_of_neg _ (by simp [hpx])] at h
      rw [List.find?_cons_of_neg _ (by simp [hpx])]
      exact ih h

/-! Lookup/update helpers for the bundle and order tables. -/

theorem findBundle_mem {bs : List UserBundle} {bid : Nat} {b : UserBundle}
    (h : findBundle bs bid = some b) : b ∈ bs :=
  List.mem_of_find?_eq_some h

theorem findBundle_id {bs : List UserBundle} {bid : Nat} {b : UserBundle}
    (h : findBundle bs bid = some b) : b.bundleId = bid := by
  have := List.find?_some h
  exact eq_of_beq this

theorem mem_updateBundle {bs : List UserBundle} {b' x : UserBundle}
    (hx : x ∈ updateBundle bs b') : x = b' ∨ x ∈ bs := by
  rcases List.mem_map.mp hx with ⟨y, hy, hxy⟩
  by_cases hc : (y.bundleId == b'.bundleId) = true
  · left
    rw [← hxy]
    simp [hc]
  · right
    have : x = y := by rw [← hxy]; simp [hc]
    exact this ▸ hy

theorem findBundle_updateBundle {bs : List UserBundle} {bid : Nat} {b b' : UserBundle}
    (h : findBundle bs bid = some b) (hid : b'.bundleId = bid) :
    findBundle (updateBundle bs b') bid = some b' := by
  induction bs with
  | nil => simp [findBundle] at h
  | cons c rest ih =>
    by_cases hc : (c.bundleId == bid) = true
    · have hcb : (c.bundleId == b'.bundleId) = true := by
        rw [hid]; exact hc
      simp only [findBundle, updateBundle, List.map_cons]
      rw [if_pos hcb]
      rw [List.find?_cons_of_pos _ (by rw [hid]; simp)]
    · have hcb : (c.bundleId == b'.bundleId) = false := by
        rw [hid]; simpa using hc
      simp only [findBundle, updateBundle, List.map_cons]
      rw [if_neg (by simp [hcb])]
      rw [List.find?_cons_of_neg _ (by simp_all)]
      have h' : findBundle rest bid = some b := by
        simp only [findBundle] at h ⊢
        rwa [List.find?_cons_of_neg _ (by simp_all)] at h
      exact ih h'

theorem findOrder_mem {os : List BundleOrder} {oid : Nat} {o : BundleOrder}
    (h : findOrder os oid = some o) : o ∈ os :=
  List.mem_of_find?_eq_some h

theorem findOrder_id {os : List BundleOrder} {oid : Nat} {o : BundleOrder}
    (h : findOrder os oid = some o) : o.orderId = oid := by
  have := List.find?_some h
  exact eq_of_beq this

theorem findOrder_updateOrder {os : List BundleOrder} {oid : Nat} {o o' : BundleOrder}
    (h : findOrder os oid = some o) (hid : o'.orderId = oid) :
    findOrder (updateOrder os o') oid = some o' := by
  induction os with
  | nil => simp [findOrder] at h
  | cons c rest ih =>
    by_cases hc : (c.orderId == oid) = true
    · have hcb : (c.orderId == o'.orderId) = true := by
        rw [hid]; exact hc
      simp only [findOrder, updateOrder, List.map_cons]
      rw [if_pos hcb]
      rw [List.find?_cons_of_pos _ (by rw [hid]; simp)]
    · have hcb : (c.orderId == o'.orderId) = false := by
        rw [hid]; simpa using hc
      simp only [findOrder, updateOrder, List.map_cons]
      rw [if_neg (by simp [hcb])]
      rw [List.find?_cons_of_neg _ (by simp_all)]
      have h' : findOrder rest oid = some o := by
        simp only [findOrder] at h ⊢
        rwa [List.find?_cons_of_neg _ (by simp_all)] at h
      exact ih h'

/-- With distinct primary keys, an id-only lookup agrees with a lookup that
also filters on extra conditions. -/
theorem findOrder_of_filtered {os : List BundleOrder} {oid : Nat} {p : BundleOrder → Bool}
    {o : BundleOrder} (hu : uniqueOrderIds os)
    (h : os.find? (fun x => x.orderId == oid && p x) = some o) :
    findOrder os oid = some o := by
  have hmem : o ∈ os := List.mem_of_find?_eq_some h
  have hpred := List.find?_some h
  have hoid : o.orderId = oid := by
    have : (o.orderId == oid) = true := by
      cases hb : (o.orderId == oid) <;> simp_all
    exact eq_of_beq this
  cases hfo : findOrder os oid with
  | none =>
    exfalso
    have := List.find?_eq_none.mp hfo o hmem
    simp [hoid] at this
  | some x =>
    have hxmem : x ∈ os := findOrder_mem hfo
    have hxid : x.orderId = oid := findOrder_id hfo
    have : x = o :=
      List.inj_on_of_nodup_map hu hxmem hmem (by rw [hxid, hoid])
    rw [this]

/-- With distinct primary keys, a filtered lookup fails when the order with
that id fails the filter. -/
theorem filtered_find?_eq_none {os : List BundleOrder} {oid : Nat} {p : BundleOrder → Bool}
    {o : BundleOrder} (hu : uniqueOrderIds os) (h : findOrder os oid = some o)
    (hp : p o = false) :
    os.find? (fun x => x.orderId == oid && p x) = none := by
  apply List.find?_eq_none.mpr
  intro x hx
  by_cases hid : (x.orderId == oid) = true
  · have hxo : x = o := by
      have hmem : o ∈ os := findOrder_mem h
      exact List.inj_on_of_nodup_map hu hx hmem
        (by rw [eq_of_beq hid, findOrder_id h])
    rw [hxo, hp]
    simp
  · simp [hid]

/-! Facts about the chat admission predicate and the lazy daily reset. -/

theorem can_use_chat_snd_cases (b : UserBundle) (now : Nat) :
    (b.can_use_chat now).2 = b ∨ (b.can_use_chat now).2 = b.reset_daily_chat_if_needed now := by
  unfold UserBundle.can_use_chat
  by_cases h1 : (!b.is_active) = true
  · rw [if_pos h1]
    left
    rfl
  · rw [if_neg h1]
    by_cases h2 : (b.is_expired now) = true
    · rw [if_pos h2]
      left
      rfl
    · rw [if_neg h2]
      by_cases h3 : 0 < b.defn.daily_chat_limit
      · rw [if_pos h3]
        right
        dsimp only
        split
        · rfl
        · split
          · rfl
          · rfl
      · rw [if_neg h3]
        left
        split
        · rfl
        · rfl

theorem reset_daily_scrub (b : UserBundle) (now : Nat) :
    scrubDaily (b.reset_daily_chat_if_needed now) = scrubDaily b := by
  unfold UserBundle.reset_daily_chat_if_needed
  split
  · rfl
  · rfl

theorem can_use_chat_scrub (b : UserBundle) (now : Nat) :
    scrubDaily (b.can_use_chat now).2 = scrubDaily b := by
  rcases can_use_chat_snd_cases b now with h | h
  · rw [h]
  · rw [h, reset_daily_scrub]

theorem can_use_chat_snd_bid (b : UserBundle) (now : Nat) :
    (b.can_use_chat now).2.bundleId = b.bundleId := by
  have h := congrArg UserBundle.bundleId (can_use_chat_scrub b now)
  exact h

theorem bundleInv_of_scrub_eq {x y : UserBundle} (h : scrubDaily x = scrubDaily y)
    (hy : bundleInv y) : bundleInv x := by
  have h1' := congrArg UserBundle.defn h
  have h2' := congrArg UserBundle.exams_remaining h
  have h3' := congrArg UserBundle.chats_remaining h
  have h4' := congrArg UserBundle.search_remaining h
  have h1 : x.defn = y.defn := h1'
  have h2 : x.exams_remaining = y.exams_remaining := h2'
  have h3 : x.chats_remaining = y.chats_remaining := h3'
  have h4 : x.search_remaining = y.search_remaining := h4'
  unfold bundleInv at hy ⊢
  rw [h1, h2, h3, h4]
  exact hy

theorem get_active_bundle_mem {st : SysState} {now : Nat} {b : UserBundle}
    (h : get_active_bundle st now = some b) : b ∈ st.bundles := by
  unfold get_active_bundle at h
  split at h
  · simp at h
  · rename_i bid
    split at h
    · simp at h
    · rename_i c hf
      split at h
      · exact (Option.some.inj h) ▸ findBundle_mem hf
      · simp at h

/-! C2: completed purchases initialise the bundle from the definition. -/

/-- C2: when a purchase of definition D completes — through
`purchase_bundle`'s auto-complete path or through `complete_order` on a
payment-verified order — the created `UserBundle` starts with
`exams_remaining`, `chats_remaining` and `search_remaining` equal to D's
exam, total-chat and search quotas, and its expiry equals the purchase time
plus D's validity window; the purchase path also re-points the profile. -/
theorem purchase_initializes_bundle :
    (∀ st now defId pd d, pd.auto_complete = true →
      st.catalog.find? (fun d0 => d0.defId == defId && d0.is_active) = some d →
      ∃ b, (purchase_bundle st now defId pd).2.bundles = st.bundles ++ [b] ∧
        b.exams_remaining = (d.exam_quota : Int) ∧
        b.chats_remaining = (d.total_chat_quota : Int) ∧
        b.search_remaining = (d.search_quota : Int) ∧
        b.expiry_date = now + d.validity_days * secondsPerDay ∧
        (purchase_bundle st now defId pd).2.profile.active_bundle = some b.bundleId) ∧
    (∀ st now oid o,
      st.orders.find? (fun o0 => o0.orderId == oid &&
        o0.status == OrderStatus.payment_verified) = some o →
      ∃ bid st' b, complete_order st now oid = some (bid, st') ∧
        st'.bundles = st.bundles ++ [b] ∧ b.bundleId = bid ∧
        b.exams_remaining = (o.defn.exam_quota : Int) ∧
        b.chats_remaining = (o.defn.total_chat_quota : Int) ∧
        b.search_remaining = (o.defn.search_quota : Int) ∧
        b.expiry_date = now + o.defn.validity_days * secondsPerDay) := by
  constructor
  · intro st now defId pd d hauto hfind
    refine ⟨mkUserBundle st.nextBundleId st.profile.userId d now, ?_⟩
    simp [purchase_bundle, hfind, hauto, mkUserBundle]
  · intro st now oid o hfind
    unfold complete_order
    rw [hfind]
    exact ⟨st.nextBundleId, _, mkUserBundle st.nextBundleId o.userId o.defn now,
      rfl, rfl, rfl, rfl, rfl, rfl, rfl⟩

/-- C2 witness: purchasing `defW` (quotas 5/20/30, 30-day validity) at time
0 yields a bundle with exactly those balances and a 30-day expiry. -/
theorem purchase_initializes_bundle_w :
    ∃ b, (purchase_bundle stW 0 7 { amount := none, auto_complete := true }).2.bundles
        = stW.bundles ++ [b] ∧
      b.exams_remaining = ((defW.exam_quota : Nat) : Int) ∧
      b.chats_remaining = ((defW.total_chat_quota : Nat) : Int) ∧
      b.search_remaining = ((defW.search_quota : Nat) : Int) ∧
      b.expiry_date = 0 + defW.validity_days * secondsPerDay ∧
      (purchase_bundle stW 0 7 { amount := none, auto_complete := true }).2.profile.active_bundle
        = some b.bundleId :=
  purchase_initializes_bundle.1 stW 0 7 { amount := none, auto_complete := true } defW
    rfl (by decide)

/-! C8: consumption against an expired bundle. -/

/-- C8 (amended): every `consume_resource` call against a bundle past its
expiry fails — but with the no-active-bundle failure, because
`get_active_bundle` filters the expired bundle out before any
expiry-specific check can run — and the state is unchanged. -/
theorem expired_bundle_consume_fails :
    ∀ st now rt q descr bid b, st.profile.active_bundle = some bid →
      findBundle st.bundles bid = some b → b.expiry_date < now →
      consume_resource st now rt q descr = (ConsumeRes.noActiveBundle, st) := by
  intro st now rt q descr bid b hp hf hexp
  have hg : get_active_bundle st now = none := by
    simp [get_active_bundle, hp, hf, UserBundle.is_expired, hexp]
  simp [consume_resource, admission, hg]

/-- C8 counterexample: a bundle expired at time 100, consumed at time 200
with five exams (and chats, searches) remaining, fails with the
`noActiveBundle` outcome — message "No active bundle found" — rather than
any bundle-expired error; the state is untouched. -/
theorem expired_bundle_error_counterexample :
    (consume_resource stExp 200 ResourceType.exam 1 "").1 = ConsumeRes.noActiveBundle ∧
    (consume_resource stExp 200 ResourceType.exam 1 "").2 = stExp ∧
    ConsumeRes.noActiveBundle.message = "No active bundle found" ∧
    ConsumeRes.noActiveBundle ≠ ConsumeRes.examExhausted ∧
    bExp.exams_remaining = 5 ∧ bExp.expiry_date = 100 := by
  refine ⟨?_, ?_, rfl, by decide, rfl, rfl⟩ <;> decide

/-- C8 witness: the amended statement applied to the expired fixture with a
chat consumption. -/
theorem expired_bundle_consume_fails_w :
    consume_resource stExp 200 ResourceType.chat 3 "late" = (ConsumeRes.noActiveBundle, stExp) :=
  expired_bundle_consume_fails stExp 200 ResourceType.chat 3 "late" 1 bExp rfl rfl
    (by decide)

/-! C9: the daily reset is idempotent within a day. -/

/-- C9: a second `reset_daily_chats` run later the same day (with all reset
stamps in the past, as successive wall-clock reads guarantee) updates zero
bundles, changes no counters or reset stamps, and appends no reset rows. -/
theorem reset_daily_chats_idempotent :
    ∀ st now1 now2, (∀ b ∈ st.bundles, b.last_chat_reset ≤ now1) → now1 < now2 →
      now1 / secondsPerDay = now2 / secondsPerDay →
      reset_daily_chats (reset_daily_chats st now1).2 now2 = (0, (reset_daily_chats st now1).2) := by
  intro st now1 now2 hle h12 hday
  have hmid : midnightOf now2 = midnightOf now1 := by
    unfold midnightOf
    rw [hday]
  have hm1 : midnightOf now1 ≤ now1 := Nat.div_mul_le_self now1 secondsPerDay
  have hb1 : (reset_daily_chats st now1).2.bundles = st.bundles.map (fun b =>
      if dailyResetNeeded now1 b then { b with daily_chats_used := 0, last_chat_reset := now1 }
      else b) := rfl
  have hbundle : ∀ x ∈ (reset_daily_chats st now1).2.bundles,
      dailyResetNeeded now2 x = false ∧ resetRowMatch now2 x = false := by
    intro x hx
    rw [hb1] at hx
    rcases List.mem_map.mp hx with ⟨b, hb, hfb⟩
    by_cases hc : dailyResetNeeded now1 b = true
    · rw [if_pos hc] at hfb
      rw [← hfb]
      refine ⟨?_, ?_⟩
      · unfold dailyResetNeeded
        have hlt : ¬ (now1 < midnightOf now2) := by rw [hmid]; omega
        simp [hlt]
      · unfold resetRowMatch
        have hne : ¬ (now1 = now2) := by omega
        simp [hne]
    · rw [if_neg hc] at hfb
      rw [← hfb]
      have hbl : b.last_chat_reset ≤ now1 := hle b hb
      refine ⟨?_, ?_⟩
      · unfold dailyResetNeeded at hc ⊢
        rw [hmid]
        simpa using hc
      · unfold resetRowMatch
        have hne : ¬ (b.last_chat_reset = now2) := by omega
        simp [hne]
  set st1 := (reset_daily_chats st now1).2 with hst1
  have hmap : st1.bundles.map (fun b =>
      if dailyResetNeeded now2 b then { b with daily_chats_used := 0, last_chat_reset := now2 }
      else b) = st1.bundles :=
    map_eq_self_of_mem (fun x hx => by rw [if_neg (by simp [(hbundle x hx).1])])
  have hfil : st1.bundles.filter (resetRowMatch now2) = [] :=
    List.filter_eq_nil_iff.mpr (fun x hx => by simp [(hbundle x hx).2])
  have hfil2 : st1.bundles.filter (dailyResetNeeded now2) = [] :=
    List.filter_eq_nil_iff.mpr (fun x hx => by simp [(hbundle x hx).1])
  show reset_daily_chats st1 now2 = (0, st1)
  unfold reset_daily_chats
  simp only [hmap, hfil, hfil2, List.map_nil, List.append_nil, List.length_nil]

/-- C9 witness: with one stale bundle, the first run at 100000 resets it and
a second run at 150000 (the same day) is a no-op returning count 0. -/
theorem reset_daily_chats_idempotent_w :
    reset_daily_chats (reset_daily_chats stDaily 100000).2 150000
      = (0, (reset_daily_chats stDaily 100000).2) :=
  reset_daily_chats_idempotent stDaily 100000 150000 (by decide) (by decide) (by decide)

/-! C3: pairing of balance writes with ledger rows. -/

theorem admission_snd_log (st : SysState) (now : Nat) (rt : ResourceType) (q : Int) :
    (admission st now rt q).2.log = st.log := by
  unfold admission
  cases hg : get_active_bundle st now with
  | none => rfl
  | some b =>
    cases rt with
    | exam =>
      dsimp only
      split
      · rfl
      · split
        · rfl
        · rfl
    | chat =>
      dsimp only
      split
      · rfl
      · split
        · rfl
        · rfl
    | search =>
      dsimp only
      split
      · rfl
      · split
        · rfl
        · rfl
    | road_sign =>
      dsimp only
      split
      · rfl
      · rfl

theorem atomicConsume_cases (st : SysState) (bid : Nat) (rt : ResourceType) (q : Int)
    (descr : String) :
    ((atomicConsume st bid rt q descr).1 = ConsumeRes.ok ∧
      ∃ b, findBundle st.bundles bid = some b ∧
        countersNonneg (applyConsume b rt q) = true ∧
        (atomicConsume st bid rt q descr).2 = { st with
          bundles := updateBundle st.bundles (applyConsume b rt q)
          log := st.log ++ [consumeTxn b (applyConsume b rt q) rt q descr] }) ∨
    ((atomicConsume st bid rt q descr).1 = ConsumeRes.internalError ∧
      (atomicConsume st bid rt q descr).2 = st) := by
  unfold atomicConsume
  cases hf : findBundle st.bundles bid with
  | none => exact Or.inr ⟨rfl, rfl⟩
  | some b =>
    by_cases hnn : countersNonneg (applyConsume b rt q) = true
    · refine Or.inl ⟨?_, b, rfl, hnn, ?_⟩ <;> simp [hnn]
    · refine Or.inr ⟨?_, ?_⟩ <;> simp [hnn]

/-- C3 (amended): the locked consume step commits its counter write together
with exactly one `consume` row carrying the before/after snapshots, failed
consume calls append nothing, the daily-reset sweep's appended rows are all
`reset` rows for reset bundles — but the lazy daily reset performed during a
chat admission check commits its counter write with no row at all (the
pre-flight checker never appends to the log, even when it mutates). -/
theorem ledger_pairing_amended :
    (∀ st bid rt q descr, (atomicConsume st bid rt q descr).1 = ConsumeRes.ok →
      ∃ b, findBundle st.bundles bid = some b ∧
        (atomicConsume st bid rt q descr).2.bundles
          = updateBundle st.bundles (applyConsume b rt q) ∧
        (atomicConsume st bid rt q descr).2.log
          = st.log ++ [consumeTxn b (applyConsume b rt q) rt q descr]) ∧
    (∀ st bid rt q descr, (atomicConsume st bid rt q descr).1 ≠ ConsumeRes.ok →
      (atomicConsume st bid rt q descr).2 = st) ∧
    (∀ st now rt q descr, (consume_resource st now rt q descr).1 ≠ ConsumeRes.ok →
      (consume_resource st now rt q descr).2.log = st.log) ∧
    (∀ st now, ∃ rows, (reset_daily_chats st now).2.log = st.log ++ rows ∧
      ∀ r ∈ rows, r.transaction_type = TransactionType.reset ∧
        ∃ b ∈ (reset_daily_chats st now).2.bundles,
          b.bundleId = r.bundleId ∧ b.daily_chats_used = 0 ∧ b.last_chat_reset = now) ∧
    (∀ st now rt, (check_resource_access st now rt).2.log = st.log) := by
  refine ⟨?_, ?_, ?_, ?_, ?_⟩
  · intro st bid rt q descr h
    rcases atomicConsume_cases st bid rt q descr with ⟨_, b, hf, _, hsnd⟩ | ⟨herr, _⟩
    · exact ⟨b, hf, by rw [hsnd], by rw [hsnd]⟩
    · rw [herr] at h
      simp at h
  · intro st bid rt q descr h
    rcases atomicConsume_cases st bid rt q descr with ⟨hok, _⟩ | ⟨_, hsnd⟩
    · exact absurd hok h
    · exact hsnd
  · intro st now rt q descr h
    unfold consume_resource at h ⊢
    cases hadm : admission st now rt q with
    | mk step st1 =>
      have hlog : st1.log = st.log := by
        have hl := admission_snd_log st now rt q
        rw [hadm] at hl
        exact hl
      rw [hadm] at h
      cases step with
      | early r => exact hlog
      | proceed bid =>
        rcases atomicConsume_cases st1 bid rt q descr with ⟨hok, _⟩ | ⟨_, hsnd⟩
        · exact absurd hok h
        · rw [hsnd]
          exact hlog
  · intro st now
    refine ⟨_, rfl, ?_⟩
    intro r hr
    rcases List.mem_map.mp hr with ⟨b, hb, hrb⟩
    have hb' := List.mem_filter.mp hb
    have hmatch : (b.is_active = true ∧ b.daily_chats_used = 0) ∧ b.last_chat_reset = now := by
      have hm := hb'.2
      unfold resetRowMatch at hm
      simpa using hm
    refine ⟨by rw [← hrb]; rfl, b, hb'.1, by rw [← hrb]; rfl, hmatch.1.2, hmatch.2⟩
  · intro st now rt
    unfold check_resource_access
    cases hg : get_active_bundle st now with
    | none => rfl
    | some b => cases rt <;> rfl

/-- C3 counterexample: a failing chat consumption on a bundle one day past
its last reset commits the lazy daily reset (the bundle table changes) while
the transaction log is unchanged — a balance-counter write committed with no
accompanying `ResourceTransaction` row. -/
theorem lazy_reset_unlogged_counterexample :
    (consume_resource stLazy 200000 ResourceType.chat 1 "").1 = ConsumeRes.chatExhausted ∧
    (consume_resource stLazy 200000 ResourceType.chat 1 "").2.log = stLazy.log ∧
    (consume_resource stLazy 200000 ResourceType.chat 1 "").2.bundles ≠ stLazy.bundles ∧
    findBundle (consume_resource stLazy 200000 ResourceType.chat 1 "").2.bundles 1
      = some { bLazy with daily_chats_used := 0, last_chat_reset := 200000 } := by
  refine ⟨by decide, by decide, by decide, by decide⟩

/-- C3 witness: a successful exam consumption on `stOne` commits its
balances together with the consume row, and the failing chat consumption on
`stLazy` appends nothing. -/
theorem ledger_pairing_amended_w :
    (∃ b, findBundle stOne.bundles 1 = some b ∧
      (atomicConsume stOne 1 ResourceType.exam 1 "w").2.bundles
        = updateBundle stOne.bundles (applyConsume b ResourceType.exam 1) ∧
      (atomicConsume stOne 1 ResourceType.exam 1 "w").2.log
        = stOne.log ++ [consumeTxn b (applyConsume b ResourceType.exam 1) ResourceType.exam 1 "w"]) ∧
    (consume_resource stLazy 200000 ResourceType.chat 1 "").2.log = stLazy.log := by
  constructor
  · exact ledger_pairing_amended.1 stOne 1 ResourceType.exam 1 "w" (by decide)
  · exact ledger_pairing_amended.2.2.1 stLazy 200000 ResourceType.chat 1 "" (by decide)

/-! C4: two consumers racing on one remaining unit. -/

/-- C4 (amended): `consume_resource` does not re-validate the admission
condition after taking the row lock; with `exams_remaining = 1` (bounded
quota) two racing exam consumptions both pass the pre-lock admission check,
the first locked update succeeds, and the second is stopped only by the
database's non-negative counter constraint, so it returns the
internal-error outcome — not `QuotaExhausted`.  Exactly one call succeeds
and the counter ends at 0, never negative. -/
theorem concurrent_consume_amended :
    ∀ st now bid b, st.profile.active_bundle = some bid →
      findBundle st.bundles bid = some b →
      b.is_active = true → b.is_expired now = false →
      b.defn.exam_quota ≠ 0 → b.exams_remaining = 1 →
      0 ≤ b.chats_remaining → 0 ≤ b.search_remaining →
      0 ≤ b.total_chats_consumed → 0 ≤ b.daily_chats_used →
      (consume_exam_pair st now).1 = (ConsumeRes.ok, ConsumeRes.internalError) ∧
      findBundle (consume_exam_pair st now).2.bundles bid
        = some { b with exams_remaining := 0 } := by
  intro st now bid b hp hf hact hexp hquota hone hc hs ht hd
  have hbid : b.bundleId = bid := findBundle_id hf
  have hg : get_active_bundle st now = some b := by
    simp [get_active_bundle, hp, hf, hact, hexp]
  have hunl : b.defn.is_unlimited_exams = false := by
    unfold BundleDefinition.is_unlimited_exams
    simpa using hquota
  have hcan : b.can_use_exam now = true := by
    simp [UserBundle.can_use_exam, hact, hexp, hunl, hone]
  have hadm : admission st now ResourceType.exam 1 = (AdmissionStep.proceed b.bundleId, st) := by
    unfold admission
    rw [hg]
    simp [hcan, hunl, hone]
  have hb1 : applyConsume b ResourceType.exam 1 = { b with exams_remaining := 0 } := by
    simp [applyConsume, hunl, hone]
  have hnn1 : countersNonneg { b with exams_remaining := 0 } = true := by
    simp [countersNonneg]
    exact ⟨⟨⟨hc, hs⟩, ht⟩, hd⟩
  have hatom1 : atomicConsume st b.bundleId ResourceType.exam 1 "" =
      (ConsumeRes.ok, { st with
        bundles := updateBundle st.bundles { b with exams_remaining := 0 }
        log := st.log ++
          [consumeTxn b { b with exams_remaining := 0 } ResourceType.exam 1 ""] }) := by
    unfold atomicConsume
    have hfb : findBundle st.bundles b.bundleId = some b := by
      rw [hbid]
      exact hf
    rw [hfb]
    dsimp only
    rw [hb1, if_pos hnn1]
  have hfb2 : findBundle st.bundles b.bundleId = some b := by
    rw [hbid]
    exact hf
  have hf2 : findBundle (updateBundle st.bundles { b with exams_remaining := 0 }) b.bundleId
      = some { b with exams_remaining := 0 } :=
    findBundle_updateBundle hfb2 rfl
  have hb2 : applyConsume { b with exams_remaining := 0 } ResourceType.exam 1
      = { b with exams_remaining := -1 } := by
    simp [applyConsume, hunl]
  have hnn2 : countersNonneg { b with exams_remaining := (-1 : Int) } = false := by
    simp [countersNonneg]
  have hatom2 : atomicConsume { st with
      bundles := updateBundle st.bundles { b with exams_remaining := 0 }
      log := st.log ++ [consumeTxn b { b with exams_remaining := 0 } ResourceType.exam 1 ""] }
      b.bundleId ResourceType.exam 1 "" =
      (ConsumeRes.internalError, { st with
        bundles := updateBundle st.bundles { b with exams_remaining := 0 }
        log := st.log ++
          [consumeTxn b { b with exams_remaining := 0 } ResourceType.exam 1 ""] }) := by
    unfold atomicConsume
    dsimp only
    rw [hf2]
    dsimp only
    rw [hb2, if_neg (by simp [hnn2])]
  unfold consume_exam_pair
  rw [hadm]
  dsimp only
  rw [hatom1]
  dsimp only
  rw [hatom2]
  refine ⟨rfl, ?_⟩
  rw [← hbid]
  exact hf2

/-- C4 counterexample: on `stOne` (one exam attempt left, bounded quota)
two racing consumptions yield one success while the losing call's outcome
is `internalError` — the aborted counter update — not the quota-exhausted
admission failures the claim predicts. -/
theorem concurrent_consume_counterexample :
    (consume_exam_pair stOne 500).1 = (ConsumeRes.ok, ConsumeRes.internalError) ∧
    ConsumeRes.internalError ≠ ConsumeRes.examExhausted ∧
    ConsumeRes.internalError ≠ ConsumeRes.examInsufficient ∧
    findBundle (consume_exam_pair stOne 500).2.bundles 1
      = some { bOne with exams_remaining := 0 } := by
  refine ⟨by decide, by decide, by decide, by decide⟩

/-- C4 witness: the amended race statement instantiated on `stOne`. -/
theorem concurrent_consume_amended_w :
    (consume_exam_pair stOne 500).1 = (ConsumeRes.ok, ConsumeRes.internalError) ∧
    findBundle (consume_exam_pair stOne 500).2.bundles 1
      = some { bOne with exams_remaining := 0 } :=
  concurrent_consume_amended stOne 500 1 bOne rfl rfl rfl (by decide) (by decide) rfl
    (by decide) (by decide) (by decide) (by decide)

/-! C7 and C10: the suggestion engine. -/

theorem scoreBundle_some {budget : ℚ} {current : Option BundleDefinition}
    {d : BundleDefinition} (hb : budget ≠ 0) (hd : d.price_etb ≠ 0) :
    ∃ s, scoreBundle budget current d = some s ∧ s.bundle = d := by
  unfold scoreBundle qdiv?
  rw [if_neg hd, if_neg hb]
  exact ⟨_, rfl, rfl⟩

theorem scoreBundle_bundle {budget : ℚ} {current : Option BundleDefinition}
    {d : BundleDefinition} {s : SuggestionItem}
    (h : scoreBundle budget current d = some s) : s.bundle = d := by
  unfold scoreBundle at h
  split at h
  · simp at h
  · split at h
    · simp at h
    · rw [← Option.some.inj h]

theorem scoreAll_mem {budget : ℚ} {current : Option BundleDefinition} :
    ∀ {ds : List BundleDefinition} {items : List SuggestionItem},
      scoreAll budget current ds = some items → ∀ s ∈ items, ∃ d ∈ ds, s.bundle = d := by
  intro ds
  induction ds with
  | nil =>
    intro items h s hs
    unfold scoreAll at h
    rw [← Option.some.inj h] at hs
    simp at hs
  | cons d ds ih =>
    intro items h s hs
    unfold scoreAll at h
    cases hsb : scoreBundle budget current d with
    | none =>
      rw [hsb] at h
      simp at h
    | some s0 =>
      rw [hsb] at h
      cases hsa : scoreAll budget current ds with
      | none =>
        rw [hsa] at h
        simp at h
      | some rest =>
        rw [hsa] at h
        rw [← Option.some.inj h] at hs
        rcases List.mem_cons.mp hs with rfl | hs'
        · exact ⟨d, List.mem_cons_self _ _, scoreBundle_bundle hsb⟩
        · obtain ⟨d', hd', he⟩ := ih hsa s hs'
          exact ⟨d', List.mem_cons_of_mem _ hd', he⟩

theorem scoreAll_some {budget : ℚ} {current : Option BundleDefinition}
    {ds : List BundleDefinition} (hb : budget ≠ 0) (hp : ∀ d ∈ ds, d.price_etb ≠ 0) :
    ∃ items, scoreAll budget current ds = some items := by
  induction ds with
  | nil => exact ⟨[], rfl⟩
  | cons d ds ih =>
    obtain ⟨items, hit⟩ := ih (fun x hx => hp x (List.mem_cons_of_mem _ hx))
    obtain ⟨s, hs, _⟩ := scoreBundle_some hb (hp d (List.mem_cons_self _ _))
    refine ⟨s :: items, ?_⟩
    unfold scoreAll
    rw [hs, hit]

theorem insertionSort_eq_nil_iff {α : Type} {r : α → α → Prop} [DecidableRel r]
    {l : List α} : List.insertionSort r l = [] ↔ l = [] := by
  constructor
  · intro h
    have hperm := List.perm_insertionSort r l
    rw [h] at hperm
    exact (hperm.symm).eq_nil
  · intro h
    rw [h]
    rfl

theorem gbs_some {budget : ℚ} {current : Option BundleDefinition}
    {catalog : List BundleDefinition}
    (h5 : ∀ d ∈ catalog, d.is_active = true → 0 < d.price_etb) (h6 : 0 < budget) :
    ∃ l, get_budget_suggestions budget current catalog = some l ∧ l.length ≤ 3 := by
  unfold get_budget_suggestions
  cases haff : List.insertionSort priceDesc
      (catalog.filter (fun d => d.is_active && decide (d.price_etb ≤ budget))) with
  | nil =>
    cases hch : (List.insertionSort priceAsc (catalog.filter (fun d => d.is_active))).head? with
    | none => exact ⟨[], rfl, by simp⟩
    | some c => exact ⟨[_], rfl, by simp⟩
  | cons a rest =>
    have hprices : ∀ d ∈ (a :: rest), d.price_etb ≠ 0 := by
      intro d hd
      rw [← haff] at hd
      have hd2 := (List.mem_insertionSort priceDesc).mp hd
      have hd3 := List.mem_filter.mp hd2
      have hact : d.is_active = true := by
        have := hd3.2
        simp at this
        exact this.1
      exact ne_of_gt (h5 d hd3.1 hact)
    obtain ⟨items, hit⟩ := @scoreAll_some budget current (a :: rest) (ne_of_gt h6) hprices
    refine ⟨(List.insertionSort scoreDesc items).take 3, ?_, ?_⟩
    · dsimp only
      rw [hit]
    · rw [List.length_take]
      exact min_le_left _ _

theorem gbs_mem {budget : ℚ} {current : Option BundleDefinition}
    {catalog : List BundleDefinition} {l : List SuggestionItem}
    (h : get_budget_suggestions budget current catalog = some l) :
    ∀ s ∈ l, s.bundle.is_active = true ∧
      (s.bundle.price_etb ≤ budget ∨
        ((∀ d ∈ catalog, d.is_active = true → ¬(d.price_etb ≤ budget)) ∧
         (∀ d ∈ catalog, d.is_active = true → s.bundle.price_etb ≤ d.price_etb) ∧
         s.reason = SuggestReason.cheapestAvailable (s.bundle.price_etb - budget))) := by
  unfold get_budget_suggestions at h
  cases haff : List.insertionSort priceDesc
      (catalog.filter (fun d => d.is_active && decide (d.price_etb ≤ budget))) with
  | nil =>
    rw [haff] at h
    have hfil : catalog.filter (fun d => d.is_active && decide (d.price_etb ≤ budget)) = [] :=
      insertionSort_eq_nil_iff.mp haff
    have hnone : ∀ d ∈ catalog, d.is_active = true → ¬(d.price_etb ≤ budget) := by
      intro d hd hact
      have hq := List.filter_eq_nil_iff.mp hfil d hd
      simp [hact] at hq
      exact not_le.mpr hq
    cases hsort : List.insertionSort priceAsc (catalog.filter (fun d => d.is_active)) with
    | nil =>
      rw [hsort] at h
      dsimp only [List.head?] at h
      rw [← Option.some.inj h]
      intro s hs
      simp at hs
    | cons c crest =>
      rw [hsort] at h
      dsimp only [List.head?] at h
      rw [← Option.some.inj h]
      intro s hs
      have hse := List.mem_singleton.mp hs
      have hcmem : c ∈ catalog.filter (fun d => d.is_active) := by
        have : c ∈ List.insertionSort priceAsc (catalog.filter (fun d => d.is_active)) := by
          rw [hsort]
          simp
        exact (List.mem_insertionSort priceAsc).mp this
      have hcact : c.is_active = true := (List.mem_filter.mp hcmem).2
      have hmin : ∀ d ∈ catalog, d.is_active = true → c.price_etb ≤ d.price_etb := by
        intro d hd hact
        have hsorted := List.sorted_insertionSort priceAsc
          (catalog.filter (fun d => d.is_active))
        rw [hsort] at hsorted
        have hdmem : d ∈ List.insertionSort priceAsc (catalog.filter (fun d => d.is_active)) :=
          (List.mem_insertionSort priceAsc).mpr (List.mem_filter.mpr ⟨hd, hact⟩)
        rw [hsort] at hdmem
        rcases List.mem_cons.mp hdmem with rfl | hdmem'
        · exact le_refl _
        · exact List.rel_of_sorted_cons hsorted d hdmem'
      rw [hse]
      exact ⟨hcact, Or.inr ⟨hnone, hmin, rfl⟩⟩
  | cons a rest =>
    rw [haff] at h
    dsimp only at h
    cases hsc : scoreAll budget current (a :: rest) with
    | none =>
      rw [hsc] at h
      simp at h
    | some items =>
      rw [hsc] at h
      intro s hs
      rw [← Option.some.inj h] at hs
      have hs1 : s ∈ List.insertionSort scoreDesc items := List.take_subset _ _ hs
      have hs2 : s ∈ items := (List.mem_insertionSort scoreDesc).mp hs1
      obtain ⟨d, hd, hsd⟩ := scoreAll_mem hsc s hs2
      have hdaff : d ∈ List.insertionSort priceDesc
          (catalog.filter (fun d => d.is_active && decide (d.price_etb ≤ budget))) := by
        rw [haff]
        exact hd
      have hd2 := List.mem_filter.mp ((List.mem_insertionSort priceDesc).mp hdaff)
      have hd3 : d.is_active = true ∧ d.price_etb ≤ budget := by
        have := hd2.2
        simpa using this
      rw [hsd]
      exact ⟨hd3.1, Or.inl hd3.2⟩

/-- C10: when every active definition carries a strictly positive price and
the budget is strictly positive, `get_budget_suggestions` completes without
a division by zero and returns at most 3 suggestions — a precondition that
is genuinely needed, since the price validator admits 0 and a zero-priced
active definition drives the unguarded value-score division into a
`ZeroDivisionError` (the `none` outcome). -/
theorem get_budget_suggestions_total :
    (∀ budget current catalog,
      (∀ d ∈ catalog, d.is_active = true → 0 < d.price_etb) → 0 < budget →
      ∃ l, get_budget_suggestions budget current catalog = some l ∧ l.length ≤ 3) ∧
    get_budget_suggestions 100 none [defZeroPrice] = none := by
  constructor
  · intro budget current catalog h5 h6
    exact gbs_some h5 h6
  · decide

/-- C10 witness: a two-definition catalog with positive prices and budget
100 yields a defined suggestion list of length at most 3. -/
theorem get_budget_suggestions_total_w :
    ∃ l, get_budget_suggestions 100 none [defCheap, defBig] = some l ∧ l.length ≤ 3 :=
  get_budget_suggestions_total.1 100 none [defCheap, defBig] (by decide) (by decide)

/-- C7: a successful verification strictly below the order amount moves the
pending order to `insufficient_funds`, records the verified amount, reports
the deficit `orderAmount - verifiedAmount`, and persists suggestion rows
that each reference an active definition priced within the verified amount —
or, when no active definition is affordable, the single globally cheapest
active definition with its deficit noted in the reason. -/
theorem insufficient_payment_suggestions :
    ∀ st now oid ref vres o, uniqueOrderIds st.orders →
      st.orders.find? (fun o0 => o0.orderId == oid &&
        o0.status == OrderStatus.pending) = some o →
      ¬(o.expires_at < now) →
      vres.success = true →
      vres.amount < o.order_amount →
      0 < vres.amount →
      (∀ d ∈ st.catalog, d.is_active = true → 0 < d.price_etb) →
      (verify_payment st now oid ref vres).1.vstatus = VerifyStatus.insufficient_funds ∧
      (verify_payment st now oid ref vres).1.deficit = some (o.order_amount - vres.amount) ∧
      (∃ o', findOrder (verify_payment st now oid ref vres).2.orders oid = some o' ∧
        o'.status = OrderStatus.insufficient_funds ∧
        o'.verified_amount = some vres.amount) ∧
      (∃ rows, (verify_payment st now oid ref vres).2.suggestions = st.suggestions ++ rows ∧
        ∀ s ∈ rows, s.orderId = oid ∧ s.defn.is_active = true ∧
          (s.defn.price_etb ≤ vres.amount ∨
            ((∀ d ∈ st.catalog, d.is_active = true → ¬(d.price_etb ≤ vres.amount)) ∧
             (∀ d ∈ st.catalog, d.is_active = true → s.defn.price_etb ≤ d.price_etb) ∧
             s.reason = SuggestReason.cheapestAvailable (s.defn.price_etb - vres.amount)))) := by
  intro st now oid ref vres o hu hfind hnexp hsucc hlt hpos h5
  obtain ⟨items, hgbs, _⟩ :=
    @gbs_some vres.amount (some o.defn) st.catalog h5 hpos
  have hord : findOrder st.orders oid = some o := findOrder_of_filtered hu hfind
  unfold verify_payment
  rw [hfind]
  dsimp only
  rw [if_neg (by simpa using hnexp)]
  rw [if_neg (by simp [hsucc])]
  rw [if_neg (by simpa using not_le.mpr hlt)]
  rw [hgbs]
  refine ⟨rfl, rfl, ?_, ?_⟩
  · have hid : o.orderId = oid := findOrder_id hord
    exact ⟨_, findOrder_updateOrder hord hid, rfl, rfl⟩
  · refine ⟨_, rfl, ?_⟩
    intro s hs
    rcases List.mem_map.mp hs with ⟨it, hit, hrow⟩
    have hprops := gbs_mem hgbs it hit
    rw [← hrow]
    refine ⟨rfl, hprops.1, ?_⟩
    rcases hprops.2 with hle | ⟨hno, hmin, hreason⟩
    · exact Or.inl hle
    · exact Or.inr ⟨hno, hmin, hreason⟩

/-- C7 witness: verifying a 100-unit payment against the pending 300-unit
order of `stPend` lands in `insufficient_funds` with deficit 200 and
persisted suggestions drawn from the affordable active definitions. -/
theorem insufficient_payment_suggestions_w :
    (verify_payment stPend 70 1 "R" vres100).1.vstatus = VerifyStatus.insufficient_funds ∧
    (verify_payment stPend 70 1 "R" vres100).1.deficit
      = some (oPend.order_amount - vres100.amount) ∧
    (∃ o', findOrder (verify_payment stPend 70 1 "R" vres100).2.orders 1 = some o' ∧
      o'.status = OrderStatus.insufficient_funds ∧
      o'.verified_amount = some vres100.amount) ∧
    (∃ rows, (verify_payment stPend 70 1 "R" vres100).2.suggestions
        = stPend.suggestions ++ rows ∧
      ∀ s ∈ rows, s.orderId = 1 ∧ s.defn.is_active = true ∧
        (s.defn.price_etb ≤ vres100.amount ∨
          ((∀ d ∈ stPend.catalog, d.is_active = true → ¬(d.price_etb ≤ vres100.amount)) ∧
           (∀ d ∈ stPend.catalog, d.is_active = true → s.defn.price_etb ≤ d.price_etb) ∧
           s.reason = SuggestReason.cheapestAvailable (s.defn.price_etb - vres100.amount)))) :=
  insufficient_payment_suggestions stPend 70 1 "R" vres100 oPend (by decide) (by decide)
    (by decide) rfl (by decide) (by decide) (by decide)

/-! C5: the order lifecycle. -/

/-- C5 (amended): orders move only along the documented transitions for
`create_order`, `verify_payment`, `complete_order` and `cancel_order`, each
of which filters on the status it requires, so no terminal order is touched
by them; `accept_suggestion`, however, checks only that a suggestion row
exists for the order — not its status — so it leaves terminal orders alone
only when no suggestion row references them. -/
theorem order_transitions_amended :
    (∀ st now did pmid oid o, findOrder st.orders oid = some o →
      findOrder (create_order st now did pmid).2.orders oid = some o) ∧
    (∀ st now oid ref vres o, uniqueOrderIds st.orders →
      findOrder st.orders oid = some o → o.status ≠ OrderStatus.pending →
      (verify_payment st now oid ref vres).2 = st) ∧
    (∀ st now oid o, uniqueOrderIds st.orders →
      findOrder st.orders oid = some o → o.status ≠ OrderStatus.payment_verified →
      complete_order st now oid = none) ∧
    (∀ st oid o, uniqueOrderIds st.orders →
      findOrder st.orders oid = some o → o.status ≠ OrderStatus.pending →
      o.status ≠ OrderStatus.insufficient_funds →
      cancel_order st oid = (CancelRes.not_found, st)) ∧
    (∀ st now oid did, (∀ s ∈ st.suggestions, s.orderId ≠ oid) →
      (accept_suggestion st now oid did).2 = st) := by
  refine ⟨?_, ?_, ?_, ?_, ?_⟩
  · intro st now did pmid oid o h
    unfold create_order
    cases hc : st.catalog.find? (fun d => d.defId == did && d.is_active) with
    | none => simpa using h
    | some d =>
      cases hm : st.paymentMethods.find? (fun m => m.pmId == pmid && m.is_active) with
      | none => simpa using h
      | some pm => exact find?_append_some h
  · intro st now oid ref vres o hu h hs
    have hnone : st.orders.find?
        (fun x => x.orderId == oid && x.status == OrderStatus.pending) = none :=
      filtered_find?_eq_none hu h (beq_eq_false_iff_ne.mpr hs)
    unfold verify_payment
    rw [hnone]
  · intro st now oid o hu h hs
    have hnone : st.orders.find?
        (fun x => x.orderId == oid && x.status == OrderStatus.payment_verified) = none :=
      filtered_find?_eq_none hu h (beq_eq_false_iff_ne.mpr hs)
    unfold complete_order
    rw [hnone]
  · intro st oid o hu h hs1 hs2
    have hnone : st.orders.find? (fun x => x.orderId == oid &&
        (x.status == OrderStatus.pending || x.status == OrderStatus.insufficient_funds)) = none := by
      apply filtered_find?_eq_none hu h
      rw [beq_eq_false_iff_ne.mpr hs1, beq_eq_false_iff_ne.mpr hs2]
      rfl
    unfold cancel_order
    rw [hnone]
  · intro st now oid did hsug
    unfold accept_suggestion
    cases ho : findOrder st.orders oid with
    | none => rfl
    | some o =>
      cases hd : st.catalog.find? (fun d => d.defId == did) with
      | none => rfl
      | some d =>
        have hn : st.suggestions.find?
            (fun s => s.orderId == oid && s.defn.defId == did) = none :=
          List.find?_eq_none.mpr (fun s hs => by simp [hsug s hs])
        rw [hn]

/-! C1: the balance invariant. -/

theorem bundleInv_applyConsume {b : UserBundle} {rt : ResourceType} {q : Int}
    (hq : 0 ≤ q) (hb : bundleInv b)
    (hnn : countersNonneg (applyConsume b rt q) = true) :
    bundleInv (applyConsume b rt q) := by
  obtain ⟨hbe, hbc, hbs⟩ := hb
  cases rt with
  | exam =>
    by_cases hu : (b.defn.is_unlimited_exams) = true
    · have happ : applyConsume b ResourceType.exam q = b := by
        simp [applyConsume, hu]
      rw [happ]
      exact ⟨hbe, hbc, hbs⟩
    · have happ : applyConsume b ResourceType.exam q =
          { b with exams_remaining := b.exams_remaining - q } := by
        simp [applyConsume, hu]
      rw [happ] at hnn ⊢
      simp only [countersNonneg, Bool.and_eq_true, decide_eq_true_eq] at hnn
      obtain ⟨⟨⟨⟨h1, h2⟩, h3⟩, h4⟩, h5⟩ := hnn
      refine ⟨?_, hbc, hbs⟩
      intro hq0
      have hup := hbe hq0
      show 0 ≤ b.exams_remaining - q ∧ b.exams_remaining - q ≤ (b.defn.exam_quota : Int)
      omega
  | chat =>
    by_cases hu : (b.defn.is_unlimited_chats) = true
    · have happ : applyConsume b ResourceType.chat q =
          { b with total_chats_consumed := b.total_chats_consumed + q
                   daily_chats_used := b.daily_chats_used + q } := by
        simp [applyConsume, hu]
      rw [happ]
      exact ⟨hbe, hbc, hbs⟩
    · have happ : applyConsume b ResourceType.chat q =
          { b with chats_remaining := b.chats_remaining - q
                   total_chats_consumed := b.total_chats_consumed + q
                   daily_chats_used := b.daily_chats_used + q } := by
        simp [applyConsume, hu]
      rw [happ] at hnn ⊢
      simp only [countersNonneg, Bool.and_eq_true, decide_eq_true_eq] at hnn
      obtain ⟨⟨⟨⟨h1, h2⟩, h3⟩, h4⟩, h5⟩ := hnn
      refine ⟨hbe, ?_, hbs⟩
      intro hq0
      have hup := hbc hq0
      show 0 ≤ b.chats_remaining - q ∧ b.chats_remaining - q ≤ (b.defn.total_chat_quota : Int)
      omega
  | search =>
    by_cases hu : (b.defn.is_unlimited_search) = true
    · have happ : applyConsume b ResourceType.search q = b := by
        simp [applyConsume, hu]
      rw [happ]
      exact ⟨hbe, hbc, hbs⟩
    · have happ : applyConsume b ResourceType.search q =
          { b with search_remaining := b.search_remaining - q } := by
        simp [applyConsume, hu]
      rw [happ] at hnn ⊢
      simp only [countersNonneg, Bool.and_eq_true, decide_eq_true_eq] at hnn
      obtain ⟨⟨⟨⟨h1, h2⟩, h3⟩, h4⟩, h5⟩ := hnn
      refine ⟨hbe, hbc, ?_⟩
      intro hq0
      have hup := hbs hq0
      show 0 ≤ b.search_remaining - q ∧ b.search_remaining - q ≤ (b.defn.search_quota : Int)
      omega
  | road_sign => exact ⟨hbe, hbc, hbs⟩

theorem stateInv_admission (st : SysState) (now : Nat) (rt : ResourceType) (q : Int)
    (h : stateInv st) : stateInv (admission st now rt q).2 := by
  unfold admission
  cases hg : get_active_bundle st now with
  | none => exact h
  | some b =>
    have hbmem : b ∈ st.bundles := get_active_bundle_mem hg
    have hsnd : stateInv { st with bundles := updateBundle st.bundles (b.can_use_chat now).2 } := by
      intro x hx
      rcases mem_updateBundle hx with rfl | hx'
      · exact bundleInv_of_scrub_eq (can_use_chat_scrub b now) (h b hbmem)
      · exact h x hx'
    cases rt with
    | exam =>
      dsimp only
      split
      · exact h
      · split
        · exact h
        · exact h
    | chat =>
      dsimp only
      split
      · exact hsnd
      · split
        · exact hsnd
        · exact hsnd
    | search =>
      dsimp only
      split
      · exact h
      · split
        · exact h
        · exact h
    | road_sign =>
      dsimp only
      split
      · exact h
      · exact h

theorem stateInv_consume (st : SysState) (now : Nat) (rt : ResourceType) (q : Int)
    (descr : String) (hq : 0 ≤ q) (h : stateInv st) :
    stateInv (consume_resource st now rt q descr).2 := by
  have hadm := stateInv_admission st now rt q h
  unfold consume_resource
  cases hadm2 : admission st now rt q with
  | mk step st1 =>
    have hst1 : stateInv st1 := by rw [hadm2] at hadm; exact hadm
    cases step with
    | early r => exact hst1
    | proceed bid =>
      rcases atomicConsume_cases st1 bid rt q descr with ⟨_, b, hf, hnn, hsnd⟩ | ⟨_, hsnd⟩
      · rw [hsnd]
        intro x hx
        rcases mem_updateBundle hx with rfl | hx'
        · exact bundleInv_applyConsume hq (hst1 b (findBundle_mem hf)) hnn
        · exact hst1 x hx'
      · rw [hsnd]
        exact hst1

theorem bundleInv_mkUserBundle (bid uid : Nat) (d : BundleDefinition) (now : Nat) :
    bundleInv (mkUserBundle bid uid d now) := by
  unfold mkUserBundle bundleInv
  refine ⟨?_, ?_, ?_⟩ <;> intro _ <;> exact ⟨by simp, le_refl _⟩

theorem stateInv_purchase (st : SysState) (now : Nat) (defId : Nat) (pd : PaymentData)
    (h : stateInv st) : stateInv (purchase_bundle st now defId pd).2 := by
  unfold purchase_bundle
  cases hc : st.catalog.find? (fun d => d.defId == defId && d.is_active) with
  | none => exact h
  | some d =>
    dsimp only
    by_cases ha : pd.auto_complete = true
    · rw [if_pos ha]
      intro x hx
      rcases List.mem_append.mp hx with hx' | hx'
      · exact h x hx'
      · have hxm : x = mkUserBundle st.nextBundleId st.profile.userId d now := by
          simpa using hx'
        rw [hxm]
        exact bundleInv_mkUserBundle _ _ _ _
    · rw [if_neg ha]
      exact h

theorem stateInv_complete (st : SysState) (now oid bid : Nat) (st' : SysState)
    (h : stateInv st) (hc : complete_order st now oid = some (bid, st')) :
    stateInv st' := by
  unfold complete_order at hc
  cases hf : st.orders.find? (fun o => o.orderId == oid &&
      o.status == OrderStatus.payment_verified) with
  | none =>
    rw [hf] at hc
    simp at hc
  | some o =>
    rw [hf] at hc
    have hpair := Option.some.inj hc
    injection hpair with hbid hst
    rw [← hst]
    intro x hx
    rcases List.mem_append.mp hx with hx' | hx'
    · exact h x hx'
    · have hxm : x = mkUserBundle st.nextBundleId o.userId o.defn now := by simpa using hx'
      rw [hxm]
      exact bundleInv_mkUserBundle _ _ _ _

theorem stateInv_reset (st : SysState) (now : Nat) (h : stateInv st) :
    stateInv (reset_daily_chats st now).2 := by
  intro x hx
  have hx' : x ∈ st.bundles.map (fun b =>
      if dailyResetNeeded now b then { b with daily_chats_used := 0, last_chat_reset := now }
      else b) := hx
  rcases List.mem_map.mp hx' with ⟨b, hb, hfb⟩
  by_cases hc : dailyResetNeeded now b = true
  · rw [if_pos hc] at hfb
    rw [← hfb]
    exact h b hb
  · rw [if_neg hc] at hfb
    rw [← hfb]
    exact h b hb

theorem stateInv_expire (st : SysState) (now : Nat) (h : stateInv st) :
    stateInv (expire_bundles st now).2 := by
  intro x hx
  have hx' : x ∈ st.bundles.map (fun b =>
      if expiryDue now b then { b with is_active := false } else b) := hx
  rcases List.mem_map.mp hx' with ⟨b, hb, hfb⟩
  by_cases hc : expiryDue now b = true
  · rw [if_pos hc] at hfb
    rw [← hfb]
    exact h b hb
  · rw [if_neg hc] at hfb
    rw [← hfb]
    exact h b hb

/-- C1: for nonnegative consumption quantities (every call site passes 1),
each subsystem operation — `consume_resource`, `purchase_bundle`,
`complete_order`, `reset_daily_chats` and `expire_bundles` — preserves the
invariant that every remaining counter with a bounded (non-zero) quota stays
in `[0, quota]`; in particular no remaining counter is ever negative. -/
theorem bundle_counters_within_quota :
    (∀ st now rt q descr, 0 ≤ q → stateInv st →
      stateInv (consume_resource st now rt q descr).2) ∧
    (∀ st now defId pd, stateInv st → stateInv (purchase_bundle st now defId pd).2) ∧
    (∀ st now oid bid st', stateInv st → complete_order st now oid = some (bid, st') →
      stateInv st') ∧
    (∀ st now, stateInv st → stateInv (reset_daily_chats st now).2) ∧
    (∀ st now, stateInv st → stateInv (expire_bundles st now).2) :=
  ⟨fun st now rt q descr hq h => stateInv_consume st now rt q descr hq h,
    fun st now defId pd h => stateInv_purchase st now defId pd h,
    fun st now oid bid st' h hc => stateInv_complete st now oid bid st' h hc,
    fun st now h => stateInv_reset st now h,
    fun st now h => stateInv_expire st now h⟩

/-- C1 witness: the invariant is preserved through a concrete exam
consumption, an auto-completed purchase, an order completion, a daily reset
and an expiry sweep on the fixture states. -/
theorem bundle_counters_within_quota_w :
    stateInv (consume_resource stOne 500 ResourceType.exam 1 "w1").2 ∧
    stateInv (purchase_bundle stW 0 7 { amount := none, auto_complete := true }).2 ∧
    stateInv ((complete_order stVerif 60 1).getD (0, stVerif)).2 ∧
    stateInv (reset_daily_chats stDaily 100000).2 ∧
    stateInv (expire_bundles stExp 200).2 := by
  refine ⟨?_, ?_, ?_, ?_, ?_⟩
  · exact bundle_counters_within_quota.1 stOne 500 ResourceType.exam 1 "w1"
      (by decide) (by decide)
  · exact bundle_counters_within_quota.2.1 stW 0 7 { amount := none, auto_complete := true }
      (by decide)
  · exact bundle_counters_within_quota.2.2.1 stVerif 60 1 1
      ((complete_order stVerif 60 1).getD (0, stVerif)).2 (by decide) (by decide)
  · exact bundle_counters_within_quota.2.2.2.1 stDaily 100000 (by decide)
  · exact bundle_counters_within_quota.2.2.2.2 stExp 200 (by decide)

/-! C6: what `check_resource_access` can and cannot touch. -/

/-- C6 (amended): `check_resource_access` performs bundle resolution and the
admission check without mutating anything — except for the chat kind, whose
admission predicate may commit the lazy daily reset: the log, orders,
suggestions, purchases, profile pointer and every bundle field other than
`daily_chats_used` and `last_chat_reset` are still preserved. -/
theorem check_access_frame_amended :
    (∀ st now rt, rt ≠ ResourceType.chat → (check_resource_access st now rt).2 = st) ∧
    (∀ st now, uniqueBundleIds st.bundles →
      (check_resource_access st now ResourceType.chat).2.bundles.map scrubDaily
          = st.bundles.map scrubDaily ∧
      (check_resource_access st now ResourceType.chat).2.catalog = st.catalog ∧
      (check_resource_access st now ResourceType.chat).2.profile = st.profile ∧
      (check_resource_access st now ResourceType.chat).2.orders = st.orders ∧
      (check_resource_access st now ResourceType.chat).2.suggestions = st.suggestions ∧
      (check_resource_access st now ResourceType.chat).2.purchases = st.purchases ∧
      (check_resource_access st now ResourceType.chat).2.log = st.log) := by
  constructor
  · intro st now rt hrt
    unfold check_resource_access
    cases hg : get_active_bundle st now with
    | none => rfl
    | some b =>
      cases rt with
      | exam => rfl
      | chat => exact absurd rfl hrt
      | search => rfl
      | road_sign => rfl
  · intro st now hu
    unfold check_resource_access
    cases hg : get_active_bundle st now with
    | none => exact ⟨rfl, rfl, rfl, rfl, rfl, rfl, rfl⟩
    | some b =>
      refine ⟨?_, rfl, rfl, rfl, rfl, rfl, rfl⟩
      show (updateBundle st.bundles (b.can_use_chat now).2).map scrubDaily
        = st.bundles.map scrubDaily
      unfold updateBundle
      rw [List.map_map]
      apply map_congr_mem
      intro x hx
      show scrubDaily (if x.bundleId == (b.can_use_chat now).2.bundleId
        then (b.can_use_chat now).2 else x) = scrubDaily x
      by_cases hxc : (x.bundleId == (b.can_use_chat now).2.bundleId) = true
      · have hxb : x = b := by
          apply List.inj_on_of_nodup_map hu hx (get_active_bundle_mem hg)
          rw [eq_of_beq hxc, can_use_chat_snd_bid]
        rw [if_pos hxc, can_use_chat_scrub, hxb]
      · rw [if_neg hxc]

/-- C6 counterexample: on a bundle one day past its last reset, the chat
pre-flight check `check_resource_access` commits the lazy daily reset:
`daily_chats_used` drops from 3 to 0 and `last_chat_reset` is restamped, so
the state after the call differs from the state before. -/
theorem check_access_mutation_counterexample :
    (check_resource_access stStale 100000 ResourceType.chat).1 = true ∧
    (check_resource_access stStale 100000 ResourceType.chat).2 ≠ stStale ∧
    findBundle (check_resource_access stStale 100000 ResourceType.chat).2.bundles 1
      = some { bStale with daily_chats_used := 0, last_chat_reset := 100000 } ∧
    bStale.daily_chats_used = 3 := by
  refine ⟨by decide, by decide, by decide, rfl⟩

/-- C6 witness: the frame conditions instantiated on the stale-chat fixture:
an exam check leaves the state untouched, and the chat check preserves every
bundle field other than the daily counters. -/
theorem check_access_frame_amended_w :
    (check_resource_access stStale 100000 ResourceType.exam).2 = stStale ∧
    (check_resource_access stStale 100000 ResourceType.chat).2.bundles.map scrubDaily
      = stStale.bundles.map scrubDaily ∧
    (check_resource_access stStale 100000 ResourceType.chat).2.log = stStale.log := by
  refine ⟨?_, ?_, ?_⟩
  · exact check_access_frame_amended.1 stStale 100000 ResourceType.exam (by decide)
  · exact (check_access_frame_amended.2 stStale 100000 (by decide)).1
  · exact (check_access_frame_amended.2 stStale 100000 (by decide)).2.2.2.2.2.2

/-- C5 counterexample: the order of `stIns` sits in `insufficient_funds`
with a persisted suggestion for `defCheap`; `cancel_order` moves it to the
terminal `cancelled` state, yet `accept_suggestion` — which never looks at
the status — then drives it to `completed`, exiting a terminal state. -/
theorem accept_suggestion_escapes_cancelled :
    ((findOrder ((cancel_order stIns 1).2).orders 1).map (fun o => o.status)
      = some OrderStatus.cancelled) ∧
    ((findOrder ((accept_suggestion (cancel_order stIns 1).2 50 1 100).2).orders 1).map
        (fun o => o.status) = some OrderStatus.completed) ∧
    (accept_suggestion (cancel_order stIns 1).2 50 1 100).1 = AcceptRes.ok 1 := by
  refine ⟨?_, ?_, ?_⟩ <;> decide

/-- C5 witness: the amended transition guards applied to the
insufficient-funds fixture after cancellation: its cancelled order resists
`verify_payment`, `complete_order` and `cancel_order`. -/
theorem order_transitions_amended_w :
    (verify_payment (cancel_order stIns 1).2 60 1 "REF2" vres100).2 = (cancel_order stIns 1).2 ∧
    complete_order (cancel_order stIns 1).2 60 1 = none ∧
    cancel_order (cancel_order stIns 1).2 1 = (CancelRes.not_found, (cancel_order stIns 1).2) := by
  refine ⟨?_, ?_, ?_⟩
  · exact order_transitions_amended.2.1 (cancel_order stIns 1).2 60 1 "REF2" vres100
      { oIns with status := OrderStatus.cancelled } (by decide) (by decide) (by decide)
  · exact order_transitions_amended.2.2.1 (cancel_order stIns 1).2 60 1
      { oIns with status := OrderStatus.cancelled } (by decide) (by decide) (by decide)
  · exact order_transitions_amended.2.2.2.1 (cancel_order stIns 1).2 1
      { oIns with status := OrderStatus.cancelled } (by decide) (by decide) (by decide) (by decide)

end DriveEt
